import Mathlib

/-!
Verification of the core VM-translation and command-stream-decoding layer of
the `umr` GPU introspection library.

The C sources are shallowly embedded: machine integers become `Nat` with
explicit `% 2 ^ 64` / `% 2 ^ 32` wrapping where the C code can overflow,
pointer-based linked lists become `List`s, hardware/memory accesses become
oracle functions passed in as parameters, and every side effect that a claim
talks about (page-table entry fetches, VM reads issued while following
indirect buffers, UI callback invocations) is reified as an explicit trace.
-/

namespace Umr

/-- Wrapping 64-bit subtraction, as performed on C `uint64_t` values. -/
def sub64 (a b : Nat) : Nat := (a % 2 ^ 64 + (2 ^ 64 - b % 2 ^ 64)) % 2 ^ 64

/-- Wrapping 32-bit subtraction, as performed on C `uint32_t` values. -/
def sub32 (a b : Nat) : Nat := (a % 2 ^ 32 + (2 ^ 32 - b % 2 ^ 32)) % 2 ^ 32

/-- Is `p` a (character-list) prefix of `s`?  Used to embed C `strstr`. -/
def isPre : List Char → List Char → Bool
  | [], _ => true
  | _ :: _, [] => false
  | a :: as, b :: bs => a == b && isPre as bs

/-- Does `s` contain `p` as a contiguous substring?  Embeds C `strstr(s, p) != NULL`. -/
def hasSubAux (p : List Char) : List Char → Bool
  | [] => isPre p []
  | c :: cs => isPre p (c :: cs) || hasSubAux p cs

/-- `strstr(s, p) != NULL` on Lean strings. -/
def hasSub (s p : String) : Bool := hasSubAux p.data s.data

/-- Decoded PDE fields, from `pde_fields_t` in `umr.h`; a `{ }` literal is the
all-zero record the C code obtains from `pde_fields_t pde_fields = { 0 }`. -/
structure pde_fields_t where
  frag_size : Nat := 0
  pte_base_addr : Nat := 0
  valid : Nat := 0
  system : Nat := 0
  coherent : Nat := 0
  pte : Nat := 0
  further : Nat := 0
  llc_noalloc : Nat := 0
  mtype : Nat := 0
  tfs_addr : Nat := 0
  pa_rsvd : Nat := 0
  mall_reuse : Nat := 0
  deriving Repr, DecidableEq

/-- Embeds `umr_decode_pde_entry` (src/lib/vm/decode_pde_entry.c).  The ASIC
argument is replaced by the GFX IP major/minor version that the C code looks
up via `umr_find_ip_block(asic, "gfx", ...)`; the `switch` on
`ip->discoverable.maj` becomes the `if` chain, and an unrecognized major
falls through to the zero-initialized record. -/
def umr_decode_pde_entry (maj min pde_entry : Nat) : pde_fields_t :=
  if maj = 9 ∨ maj = 10 then
    { frag_size := (pde_entry >>> 59) &&& 0x1F
      pte_base_addr := pde_entry &&& 0xFFFFFFFFFFC0
      valid := pde_entry &&& 1
      system := (pde_entry >>> 1) &&& 1
      coherent := (pde_entry >>> 2) &&& 1
      pte := (pde_entry >>> 54) &&& 1
      further := (pde_entry >>> 56) &&& 1
      llc_noalloc := if maj = 10 ∧ 3 ≤ min then (pde_entry >>> 58) &&& 1 else 0 }
  else if maj = 11 then
    { frag_size := (pde_entry >>> 59) &&& 0x1F
      pte_base_addr := pde_entry &&& 0xFFFFFFFFFFC0
      valid := pde_entry &&& 1
      system := (pde_entry >>> 1) &&& 1
      coherent := (pde_entry >>> 2) &&& 1
      mtype := (pde_entry >>> 48) &&& 7
      pte := (pde_entry >>> 54) &&& 1
      further := (pde_entry >>> 56) &&& 1
      tfs_addr := (pde_entry >>> 57) &&& 1
      llc_noalloc := (pde_entry >>> 58) &&& 1 }
  else if maj = 12 then
    { frag_size := (pde_entry >>> 58) &&& 0x1F
      pte_base_addr := pde_entry &&& 0xFFFFFFFFFFC0
      valid := pde_entry &&& 1
      system := (pde_entry >>> 1) &&& 1
      coherent := (pde_entry >>> 2) &&& 1
      pa_rsvd := (pde_entry >>> 48) &&& 0xF
      mall_reuse := (pde_entry >>> 54) &&& 3
      tfs_addr := (pde_entry >>> 56) &&& 1
      pte := (pde_entry >>> 63) &&& 1 }
  else
    { }

/-- Decoded PTE fields, from `pte_fields_t` in `umr.h`; `{ }` is the all-zero
record from `pte_fields_t pte_fields = { 0 }`. -/
structure pte_fields_t where
  valid : Nat := 0
  system : Nat := 0
  coherent : Nat := 0
  tmz : Nat := 0
  execute : Nat := 0
  read : Nat := 0
  write : Nat := 0
  fragment : Nat := 0
  prt : Nat := 0
  pde : Nat := 0
  further : Nat := 0
  mtype : Nat := 0
  gcr : Nat := 0
  llc_noalloc : Nat := 0
  software : Nat := 0
  pa_rsvd : Nat := 0
  dcc : Nat := 0
  pte : Nat := 0
  page_base_addr : Nat := 0
  deriving Repr, DecidableEq

/-- The per-generation `switch` body of `umr_decode_pte_entry`
(src/lib/vm/decode_pte_entry.c lines 75-147): all fields except
`page_base_addr`, paired with the local `is_pde` value. -/
def decode_pte_switch (maj min pte_entry : Nat) : pte_fields_t × Nat :=
  if maj = 9 then
    ({ valid := pte_entry &&& 1
       system := (pte_entry >>> 1) &&& 1
       coherent := (pte_entry >>> 2) &&& 1
       tmz := (pte_entry >>> 3) &&& 1
       execute := (pte_entry >>> 4) &&& 1
       read := (pte_entry >>> 5) &&& 1
       write := (pte_entry >>> 6) &&& 1
       fragment := (pte_entry >>> 7) &&& 0x1F
       prt := (pte_entry >>> 51) &&& 1
       pde := (pte_entry >>> 54) &&& 1
       further := (pte_entry >>> 56) &&& 1
       mtype := (pte_entry >>> 57) &&& 3 },
     (pte_entry >>> 56) &&& 1)
  else if maj = 10 then
    ({ valid := pte_entry &&& 1
       system := (pte_entry >>> 1) &&& 1
       coherent := (pte_entry >>> 2) &&& 1
       tmz := (pte_entry >>> 3) &&& 1
       execute := (pte_entry >>> 4) &&& 1
       read := (pte_entry >>> 5) &&& 1
       write := (pte_entry >>> 6) &&& 1
       fragment := (pte_entry >>> 7) &&& 0x1F
       mtype := (pte_entry >>> 48) &&& 3
       prt := (pte_entry >>> 51) &&& 1
       pde := (pte_entry >>> 54) &&& 1
       further := (pte_entry >>> 56) &&& 1
       gcr := (pte_entry >>> 57) &&& 1
       llc_noalloc := if 3 ≤ min then (pte_entry >>> 58) &&& 1 else 0 },
     (pte_entry >>> 56) &&& 1)
  else if maj = 11 then
    ({ valid := pte_entry &&& 1
       system := (pte_entry >>> 1) &&& 1
       coherent := (pte_entry >>> 2) &&& 1
       tmz := (pte_entry >>> 3) &&& 1
       execute := (pte_entry >>> 4) &&& 1
       read := (pte_entry >>> 5) &&& 1
       write := (pte_entry >>> 6) &&& 1
       fragment := (pte_entry >>> 7) &&& 0x1F
       mtype := (pte_entry >>> 48) &&& 3
       prt := (pte_entry >>> 51) &&& 1
       software := (pte_entry >>> 52) &&& 3
       pde := (pte_entry >>> 54) &&& 1
       further := (pte_entry >>> 56) &&& 1
       gcr := (pte_entry >>> 57) &&& 1
       llc_noalloc := (pte_entry >>> 58) &&& 1 },
     (pte_entry >>> 56) &&& 1)
  else if maj = 12 then
    ({ valid := pte_entry &&& 1
       system := (pte_entry >>> 1) &&& 1
       coherent := (pte_entry >>> 2) &&& 1
       tmz := (pte_entry >>> 3) &&& 1
       execute := (pte_entry >>> 4) &&& 1
       read := (pte_entry >>> 5) &&& 1
       write := (pte_entry >>> 6) &&& 1
       fragment := (pte_entry >>> 7) &&& 0x1F
       pa_rsvd := (pte_entry >>> 48) &&& 0xF
       software := (pte_entry >>> 52) &&& 3
       mtype := (pte_entry >>> 54) &&& 3
       prt := (pte_entry >>> 56) &&& 1
       gcr := (pte_entry >>> 57) &&& 1
       dcc := (pte_entry >>> 58) &&& 1
       pte := (pte_entry >>> 63) &&& 1 },
     if (pte_entry >>> 63) &&& 1 = 0 then 1 else 0)
  else
    ({ }, 0)

/-- Embeds `umr_decode_pte_entry` (src/lib/vm/decode_pte_entry.c): the
per-generation switch followed by the role-dependent page-base-address mask
(64-byte alignment when the entry acts as a PDE, 4-KiB when it is a PTE). -/
def umr_decode_pte_entry (maj min pte_entry : Nat) : pte_fields_t :=
  let sw := decode_pte_switch maj min pte_entry
  { sw.1 with
    page_base_addr :=
      if sw.2 ≠ 0 then pte_entry &&& 0xFFFFFFFFFFC0 else pte_entry &&& 0xFFFFFFFFF000 }

/-!
### VM translation engine for GFX9+ (src/lib/vm/access_vram_ai.c)

The model starts after the register-reading prologue: a `VmConfig` carries the
values the C code composes into `vm.page_table` and `vm.vmctrl` from the
`VM_CONTEXT*`/`MC_VM_*` registers.  Physical memory is an oracle (`VmEnv`):
`access sp a n w = none` models a failed backend read/write, `some v` a
successful one where `v` is the 64-bit value at `a` when an 8-byte table
entry is fetched.  Every backend access the engine attempts is recorded in
an ordered trace, so "no read was performed" is `accesses = []`.

Diagnostic-only state of the C function (the `va_tally`/`va_mask` running
commentary, the `pde_array` capture, the optional `vmdata` snapshot and all
`vm_message` printing) does not influence the returned data, the access
sequence or the return code, and is not modelled.
-/

/-- The loop of `log2_vm_size` counting how many shifts empty the value,
with its iteration bound made explicit: the value is a C `uint64_t`, so 64
halvings always empty it. -/
def bits_loop_go : Nat → Nat → Nat
  | 0, _ => 0
  | fuel + 1, n => if n = 0 then 0 else bits_loop_go fuel (n / 2) + 1

/-- The loop of `log2_vm_size` counting how many shifts empty the value. -/
def bits_loop (n : Nat) : Nat := bits_loop_go 64 n

/-- Embeds `log2_vm_size` (src/lib/vm/access_vram_ai.c lines 219-246): the
ceiling of log2 of the size of the VM span, where `page_table_end_addr` is
inclusive of the last 4-KiB page. -/
def log2_vm_size (page_table_start_addr page_table_end_addr : Nat) : Nat :=
  let size_of_vm_bytes := sub64 page_table_end_addr page_table_start_addr
  if 2 ^ 64 - 1 - 4096 < size_of_vm_bytes then
    64
  else
    let size_of_vm_bytes := size_of_vm_bytes + 4096
    if size_of_vm_bytes ≤ 1 then 0 else bits_loop (size_of_vm_bytes - 1)

/-- Truncation of a wrapped `uint64` value into a C `int`, as happens on the
assignment `int top_pdb_bits = <uint64 expression>;` (gcc semantics). -/
def to_int32 (n : Nat) : Int :=
  if n % 2 ^ 32 < 2 ^ 31 then (n % 2 ^ 32 : Int) else (n % 2 ^ 32 : Int) - 2 ^ 32

/-- Conversion of a C `int` value to `uint64`. -/
def int_to_u64 (i : Int) : Nat := (i % 2 ^ 64).toNat

/-- The `top_pdb_bits` computation (src/lib/vm/access_vram_ai.c line 1000):
`total_vm_bits - 9 * ((depth ? depth : 1) - 1) - (block_size + 21)`, with the
C mixed `int`/`uint64_t` arithmetic made explicit. -/
def top_pdb_bits_val (total_vm_bits page_table_depth page_table_block_size : Nat) : Int :=
  let depthEff : Nat := if page_table_depth = 0 then 1 else page_table_depth
  to_int32 (sub64 (int_to_u64 ((total_vm_bits : Int) - 9 * ((depthEff : Int) - 1)))
    (page_table_block_size + 21))

/-- The PDB index selected at one level of the PDE descent
(src/lib/vm/access_vram_ai.c lines 1022-1038): the top level uses the raw
shifted address, every level below masks it to 9 bits. -/
def vm_pde_index (total_vm_bits : Nat) (top_pdb_bits : Int)
    (page_table_depth current_depth address : Nat) : Nat :=
  let amount_to_shift : Int :=
    ((total_vm_bits : Int) - top_pdb_bits) - 9 * ((page_table_depth : Int) - (current_depth : Int))
  let idx := address >>> amount_to_shift.toNat
  if current_depth ≠ page_table_depth then idx &&& 511 else idx

/-- The `pte_is_pde` flag of the translation engine
(src/lib/vm/access_vram_ai.c lines 1169-1175): a leaf entry acts as a PDE
when `further` and `valid` are set, and additionally -- only on GFX12+ --
when the (inverted-polarity) `pte` bit is clear while `valid` is set. -/
def vm_pte_is_pde (maj : Nat) (f : pte_fields_t) : Bool :=
  let base := decide (f.further ≠ 0) && decide (f.valid ≠ 0)
  if 12 ≤ maj ∧ f.pte = 0 ∧ f.valid ≠ 0 then true else base

/-- Which physical backend an access lands on. -/
inductive VmSpace where
  | vram
  | sram
  deriving Repr, DecidableEq

/-- One attempted backend access (table-entry fetch or user-page access). -/
structure VmAccess where
  space : VmSpace
  addr : Nat
  len : Nat
  write : Bool
  deriving Repr, DecidableEq

/-- Per-call register state of the translation engine, i.e. the values the
prologue of `umr_access_vram_ai` composes from hardware registers (or from a
user-queue snapshot) into `vm.page_table` / `vm.vmctrl`. -/
structure VmConfig where
  maj : Nat
  min : Nat
  page_table_start_addr : Nat
  page_table_end_addr : Nat
  page_table_base_addr : Nat
  page_table_depth : Nat
  page_table_block_size : Nat
  vm_fb_offset : Nat
  system_aperture_low : Nat
  system_aperture_high : Nat
  fb_bottom : Nat
  fb_top : Nat
  agp_base : Nat
  agp_bot : Nat
  agp_top : Nat
  sam : Nat
  user_queue_active : Bool
  deriving Repr, DecidableEq

/-- Zero-frame-buffer mode detection (src/lib/vm/access_vram_ai.c line 749). -/
def vm_zfb (cfg : VmConfig) : Bool := cfg.fb_top < cfg.fb_bottom

/-- Physical-memory oracle standing for the host-supplied backends
(`access_linear_vram` / `access_sram`): `none` is a failed access, `some v`
a successful one returning the 64-bit value `v` for 8-byte entry reads. -/
structure VmEnv where
  access : VmSpace → Nat → Nat → Bool → Option Nat
  gpu_bus_to_cpu_address : Nat → Nat

/-- Result of a translation call: the C return code plus the ordered trace of
attempted backend accesses. -/
structure VmResult where
  ret : Int
  accesses : List VmAccess
  deriving Repr, DecidableEq

/-- Embeds `access_translated_address` (src/lib/vm/access_vram_ai.c lines
595-619): VRAM accesses inside the AGP aperture are remapped to system
memory in ZFB mode; `sys = 1` accesses go straight to system memory. -/
def access_translated_address (cfg : VmConfig) (env : VmEnv) (addr : Nat) (sys : Nat)
    (len : Nat) (write_en : Bool) : Option Nat × VmAccess :=
  if sys = 0 then
    if vm_zfb cfg ∧ cfg.agp_bot ≤ addr ∧ addr < cfg.agp_top then
      let a := addr - cfg.agp_bot + cfg.agp_base
      (env.access .sram a len write_en, ⟨.sram, a, len, write_en⟩)
    else
      (env.access .vram addr len write_en, ⟨.vram, addr, len, write_en⟩)
  else
    (env.access .sram addr len write_en, ⟨.sram, addr, len, write_en⟩)

/-- The VMID-0 System-Access-Mode passthrough handling
(src/lib/vm/access_vram_ai.c lines 910-946): `some r` when the request is
resolved without a page walk (a linear VRAM access through
`umr_access_vram(..., UMR_LINEAR_HUB, ...)`, or `0` when `dst` is NULL),
`none` when the engine falls through to the page walk. -/
def vm_sam_resolve (cfg : VmConfig) (env : VmEnv) (vmid address size : Nat)
    (write_en dstPresent : Bool) : Option VmResult :=
  let lin : Nat → VmResult := fun a =>
    if dstPresent then
      match env.access .vram a size write_en with
      | some _ => ⟨0, [⟨.vram, a, size, write_en⟩]⟩
      | none => ⟨-1, [⟨.vram, a, size, write_en⟩]⟩
    else ⟨0, []⟩
  if cfg.user_queue_active = false ∧ vmid = 0 then
    if cfg.sam = 0 then
      some (lin address)
    else if cfg.sam = 1 then
      none
    else if cfg.sam = 2 then
      if ¬ (cfg.system_aperture_low ≤ address ∧ address < cfg.system_aperture_high) then
        if cfg.fb_bottom ≤ address ∧ address < cfg.fb_top then
          some (lin (address - cfg.fb_bottom))
        else
          some (lin address)
      else none
    else if cfg.sam = 3 then
      if cfg.system_aperture_low ≤ address ∧ address < cfg.system_aperture_high then
        if cfg.fb_bottom ≤ address ∧ address < cfg.fb_top then
          some (lin (address - cfg.fb_bottom))
        else
          some (lin address)
      else none
    else none
  else none

/-- Embeds `prepare_pde_to_pte` (src/lib/vm/access_vram_ai.c lines 544-559):
returns `(pde0_block_fragment_size, ptb_mask, pte_page_mask)`. -/
def prepare_pde_to_pte (cfg : VmConfig) (pde_fields : pde_fields_t)
    (current_depth total_vm_bits : Nat) : Nat × Nat × Nat :=
  let pde0_block_fragment_size := pde_fields.frag_size
  let start_bit :=
    if current_depth ≠ 0 then
      min (9 * (current_depth - 1) + cfg.page_table_block_size + 21) total_vm_bits
    else pde0_block_fragment_size + 12
  let end_bit :=
    if current_depth ≠ 0 then
      min (9 * current_depth + cfg.page_table_block_size + 21) total_vm_bits
    else cfg.page_table_block_size + 21
  let log2_ptb_entries := sub64 end_bit start_bit
  (pde0_block_fragment_size, (1 <<< log2_ptb_entries) - 1, (1 <<< start_bit) - 1)

/-- The PDE descent loop (src/lib/vm/access_vram_ai.c lines 1022-1091),
walking `current_depth` directory levels.  Returns `none` on a failed entry
read or an invalid PDE (the C `return -1` / `goto invalid_page` paths), and
otherwise the decoded PDE at exit together with the exit depth, whether a
PDE-marked-as-PTE cut the walk short, and in that case the raw entry. -/
def vm_descend (cfg : VmConfig) (env : VmEnv) (total_vm_bits : Nat) (top_pdb_bits : Int)
    (address : Nat) :
    Nat → pde_fields_t → Nat → List VmAccess →
    List VmAccess × Option (pde_fields_t × Nat × Bool × Nat)
  | 0, pde_fields, _, accs => (accs, some (pde_fields, 0, false, 0))
  | current_depth + 1, pde_fields, pde_address, accs =>
    let pde_idx := vm_pde_index total_vm_bits top_pdb_bits cfg.page_table_depth
      (current_depth + 1) address
    let addr := (pde_address + pde_idx * 8) % 2 ^ 64
    match access_translated_address cfg env addr pde_fields.system 8 false with
    | (none, acc) => (accs ++ [acc], none)
    | (some pde_entry, acc) =>
      let accs := accs ++ [acc]
      let pf := umr_decode_pde_entry cfg.maj cfg.min pde_entry
      if pf.pte ≠ 0 then
        (accs, some (pf, current_depth + 1, true, pde_entry))
      else
        let pf :=
          if pf.system = 0 then
            { pf with pte_base_addr := sub64 pf.pte_base_addr cfg.vm_fb_offset }
          else pf
        if pf.valid = 0 then (accs, none)
        else vm_descend cfg env total_vm_bits top_pdb_bits address current_depth pf
          pf.pte_base_addr accs

/-- The PTE fetch/decode stage (src/lib/vm/access_vram_ai.c lines 1106-1336),
including the `pte_further` / `pde_is_pte` jumps.  `pte_entry_direct` is
`some e` when a PDE-marked-as-PTE skipped the fetch.  On success, returns the
chunk size the page loop consumes; `none` models the C `-1` exits.  The C
code iterates unboundedly when adversarial memory keeps setting the `further`
bit, hence the explicit `fuel` (hardware performs at most one extra hop). -/
def vm_pte_stage (cfg : VmConfig) (env : VmEnv) (dstPresent write_en : Bool)
    (address size : Nat) (pde_was_pte : Bool) (current_depth : Nat) :
    Nat → Bool → pde_fields_t → Nat → Nat → Nat → Option Nat → List VmAccess →
    List VmAccess × Option Nat
  | 0, _, _, _, _, _, _, accs => (accs, none)
  | fuel + 1, further, pde_fields, pte_idx, pde0_bfs, pte_page_mask, pte_entry_direct, accs =>
    let fetched : Option Nat × List VmAccess :=
      match pte_entry_direct with
      | some e => (some e, accs)
      | none =>
        let addr := (pde_fields.pte_base_addr + pte_idx * 8) % 2 ^ 64
        match access_translated_address cfg env addr pde_fields.system 8 false with
        | (none, acc) => (none, accs ++ [acc])
        | (some e, acc) => (some e, accs ++ [acc])
    match fetched with
    | (none, accs) => (accs, none)
    | (some pte_entry, accs) =>
      let pte_fields := umr_decode_pte_entry cfg.maj cfg.min pte_entry
      if vm_pte_is_pde cfg.maj pte_fields then
        let pdef :=
          if 11 ≤ cfg.maj ∧ pde_fields.tfs_addr ≠ 0 ∧ current_depth = 0 ∧ pde_was_pte = false then
            let tmp := pde_fields.pte_base_addr
            let d := umr_decode_pde_entry cfg.maj cfg.min pte_entry
            { d with pte_base_addr := (d.pte_base_addr + tmp) % 2 ^ 64 }
          else
            let d := umr_decode_pde_entry cfg.maj cfg.min pte_entry
            if d.system = 0 then
              { d with pte_base_addr := sub64 d.pte_base_addr cfg.vm_fb_offset }
            else d
        let pte_block_fragment_size := pdef.frag_size
        let last_level_ptb_bits := 12 + pte_block_fragment_size
        let num_entry_bits := sub32 pde0_bfs pte_block_fragment_size
        let idx := (address >>> last_level_ptb_bits) &&& ((1 <<< num_entry_bits) - 1)
        vm_pte_stage cfg env dstPresent write_en address size pde_was_pte current_depth
          fuel true pdef idx pde0_bfs ((1 <<< last_level_ptb_bits) - 1) none accs
      else
        let pte_fields :=
          if pte_fields.system = 0 then
            { pte_fields with page_base_addr := sub64 pte_fields.page_base_addr cfg.vm_fb_offset }
          else pte_fields
        if dstPresent ∧ pte_fields.prt = 0 ∧ pte_fields.valid = 0 then
          (accs, none)
        else
          -- offset-mask selection, lines 1256-1266; in the PTE-Further case the C
          -- reads vm.pte.pte_block_fragment_size, which line 1170 has reset to 0
          -- on this pass, so that branch always yields the 4-KiB mask
          let offset_mask :=
            if pde_was_pte ∧ current_depth ≠ 0 then
              (1 <<< ((current_depth - 1) * 9 + (21 + cfg.page_table_block_size))) - 1
            else if further = false then
              (1 <<< (current_depth * 9 + (12 + pde0_bfs))) - 1
            else
              (1 <<< 12) - 1
          let page_start_addr := env.gpu_bus_to_cpu_address pte_fields.page_base_addr
          let start_addr := (page_start_addr + (address &&& offset_mask)) % 2 ^ 64
          let page_end_addr := (page_start_addr + pte_page_mask + 1) % 2 ^ 64
          let chunk_size :=
            if page_end_addr < (start_addr + size) % 2 ^ 64 then
              sub64 page_end_addr start_addr % 2 ^ 32
            else size
          if pte_fields.valid ≠ 0 then
            if dstPresent then
              match access_translated_address cfg env start_addr pte_fields.system chunk_size
                  write_en with
              | (none, acc) => (accs ++ [acc], none)
              | (some _, acc) => (accs ++ [acc], some chunk_size)
            else (accs, some chunk_size)
          else
            (accs, some chunk_size)

/-- The per-page `do { ... } while (size)` loop of `umr_access_vram_ai`
(src/lib/vm/access_vram_ai.c lines 962-1345).  `fuelP` bounds the number of
pages processed (the C loop can livelock when a wrapped chunk size is 0),
`fuelF` bounds PTE-Further hops within a page. -/
def vm_page_loop (cfg : VmConfig) (env : VmEnv) (total_vm_bits : Nat) (top_pdb_bits : Int)
    (dstPresent write_en : Bool) (fuelF : Nat) :
    Nat → Nat → Nat → List VmAccess → VmResult
  | 0, _, _, accs => ⟨-1, accs⟩
  | fuelP + 1, address, size, accs =>
    let pdef0 := umr_decode_pde_entry cfg.maj cfg.min cfg.page_table_base_addr
    match vm_descend cfg env total_vm_bits top_pdb_bits address cfg.page_table_depth pdef0
        pdef0.pte_base_addr accs with
    | (accs, none) => ⟨-1, accs⟩
    | (accs, some (pde_fields, current_depth, pde_was_pte, pte_entry)) =>
      let prep := prepare_pde_to_pte cfg pde_fields current_depth total_vm_bits
      let pte_idx := (address >>> (12 + prep.1)) &&& prep.2.1
      match vm_pte_stage cfg env dstPresent write_en address size pde_was_pte current_depth
          fuelF false pde_fields pte_idx prep.1 prep.2.2
          (if pde_was_pte then some pte_entry else none) accs with
      | (accs, none) => ⟨-1, accs⟩
      | (accs, some chunk_size) =>
        let size := sub32 size chunk_size
        let address := (address + chunk_size) % 2 ^ 64
        if size = 0 then ⟨0, accs⟩
        else vm_page_loop cfg env total_vm_bits top_pdb_bits dstPresent write_en fuelF fuelP
          address size accs

/-- The prologue adjustments performed between the register reads and the
SAM handling (src/lib/vm/access_vram_ai.c lines 891-904): a flat `depth = 0`
table derives its block size from the VM span, and a VRAM-resident root
table base is rebased by `vm_fb_offset`. -/
def vm_prologue (cfg : VmConfig) : VmConfig :=
  let cfg :=
    if cfg.page_table_depth = 0 then
      { cfg with
        page_table_block_size :=
          sub64 (log2_vm_size cfg.page_table_start_addr cfg.page_table_end_addr) 21 }
    else cfg
  let basef := umr_decode_pde_entry cfg.maj cfg.min cfg.page_table_base_addr
  if basef.system = 0 then
    { cfg with page_table_base_addr := sub64 cfg.page_table_base_addr cfg.vm_fb_offset }
  else cfg

/-- Embeds `umr_access_vram_ai` (src/lib/vm/access_vram_ai.c) from the point
where the VM registers have been read into `cfg`: prologue adjustments, the
VMID-0 SAM passthrough cases, the span check, then the per-page walk.  The
hub-prefix selection only chooses register names and is absorbed into `cfg`;
`vmid` is masked to its low byte as in the C (`vmid &= VM_VMID_MASK`). -/
def umr_access_vram_ai (cfg : VmConfig) (env : VmEnv) (vmid address size : Nat)
    (write_en dstPresent : Bool) (fuelP fuelF : Nat) : VmResult :=
  let vmid := vmid &&& 0xFF
  let cfg := vm_prologue cfg
  match vm_sam_resolve cfg env vmid address size write_en dstPresent with
  | some r => r
  | none =>
    if address < cfg.page_table_start_addr ∨
        cfg.page_table_end_addr + 0xFFF < address then
      ⟨-1, []⟩
    else
      let address := address - cfg.page_table_start_addr
      let total_vm_bits := log2_vm_size cfg.page_table_start_addr cfg.page_table_end_addr
      let top_pdb_bits := top_pdb_bits_val total_vm_bits cfg.page_table_depth
        cfg.page_table_block_size
      vm_page_loop cfg env total_vm_bits top_pdb_bits dstPresent write_en fuelF fuelP
        address size []

/-!
### PM4 command stream decoder (src/lib/packet/pm4/read_pm4_stream.c)

Linked lists become `List`s, the ASIC-dependent helpers (`umr_reg_name`,
`umr_read_vram` for fetching indirect buffers, `umr_compute_shader_size`)
become the oracle `Pm4Env`, and every VM read issued while following an
indirect-buffer reference is recorded as a `ReadReq` so that "no VM read was
attempted" is an equation on the trace.  32-bit C arithmetic is wrapped
explicitly (`% 2 ^ 32` / `sub32`); decode-loop recursion is bounded by an
explicit fuel because the C code recurses through freshly read IB buffers
(and its 32-bit descriptor arithmetic can even make the outer decode loop
fail to advance, see the wrapping type-2 header discussed at claim C5).
-/

/-- One tracked register write, from `struct umr_shader_reg_pair`. -/
structure umr_shader_reg_pair where
  regname : String
  value : Nat
  vmid : Nat := 0
  addr : Nat := 0
  used : Nat := 0
  deriving Repr, DecidableEq

/-- Embeds `umr_shader_find_regpair`: first exact name match. -/
def umr_shader_find_regpair (head : List umr_shader_reg_pair) (regname : String) :
    Option umr_shader_reg_pair :=
  head.find? (fun p => p.regname == regname)

/-- Embeds `umr_shader_find_partial_regpair`: first `strstr` partial match. -/
def umr_shader_find_partial_regpair (head : List umr_shader_reg_pair) (regname : String) :
    Option umr_shader_reg_pair :=
  head.find? (fun p => hasSub p.regname regname)

/-- Replace the first exact name match (the in-place update the C performs on
the node returned by `umr_shader_find_regpair`). -/
def set_first_regpair : List umr_shader_reg_pair → umr_shader_reg_pair →
    List umr_shader_reg_pair
  | [], _ => []
  | p :: ps, q => if p.regname == q.regname then q :: ps else p :: set_first_regpair ps q

/-- Embeds `umr_shader_add_reg_pair`: append-or-update keyed by exact register
name; an update rewrites value, vmid, address and clears `used`. -/
def umr_shader_add_reg_pair (head : List umr_shader_reg_pair) (regname : String)
    (value ib_vmid ib_addr : Nat) : List umr_shader_reg_pair :=
  let q : umr_shader_reg_pair :=
    { regname := regname, value := value, vmid := ib_vmid, addr := ib_addr, used := 0 }
  if head.any (fun p => p.regname == regname) then set_first_regpair head q
  else head ++ [q]

/-- Mark the first partial match for `pat` as used (`hi->used = 1`). -/
def mark_used_regpair : List umr_shader_reg_pair → String → List umr_shader_reg_pair
  | [], _ => []
  | p :: ps, pat =>
    if hasSub p.regname pat then { p with used := 1 } :: ps
    else p :: mark_used_regpair ps pat

/-- Embeds `umr_copy_regpairs`: a frozen copy of the tracker, sorted by
register name (C `qsort` with `strcmp`). -/
def umr_copy_regpairs (head : List umr_shader_reg_pair) : List umr_shader_reg_pair :=
  head.mergeSort (fun a b => !(decide (b.regname < a.regname)))

/-- The `UMR_SHADER_*` shader kinds. -/
inductive ShaderType where
  | compute
  | vertex
  | pixel
  | es
  | gs
  | hs
  | ls
  deriving Repr, DecidableEq

/-- One discovered shader program, from `struct umr_shaders_pgm`. -/
structure umr_shaders_pgm where
  vmid : Nat
  addr : Nat
  size : Nat
  type : ShaderType
  regs : List umr_shader_reg_pair
  deriving Repr, DecidableEq

/-- Decode-time options consumed by the PM4 decoder (from
`asic->options`), plus the `family <= FAMILY_VI` comparison and the
`UMR_MM_HUB` hub-selector constant whose numeric value lives in `umr.h`
(outside src/); nothing below depends on its value. -/
structure Pm4Opts where
  no_follow_shader : Bool := false
  no_follow_ib : Bool := false
  no_follow_chained_ib : Bool := false
  enable_comp_shader : Bool := true
  enable_vs_shader : Bool := true
  enable_ps_shader : Bool := true
  enable_es_shader : Bool := true
  enable_gs_shader : Bool := true
  enable_hs_shader : Bool := true
  enable_ls_shader : Bool := true
  familyLEVi : Bool := false
  mm_hub_bits : Nat := 0x200
  deriving Repr, DecidableEq

/-- The shader-enable filter of `process_shaders` (lines 289-302). -/
def shader_enabled (opts : Pm4Opts) : ShaderType → Bool
  | .compute => opts.enable_comp_shader
  | .vertex => opts.enable_vs_shader
  | .pixel => opts.enable_ps_shader
  | .es => opts.enable_es_shader
  | .gs => opts.enable_gs_shader
  | .hs => opts.enable_hs_shader
  | .ls => opts.enable_ls_shader

/-- ASIC-dependent oracles used by the PM4 decoder: register-name lookup,
VM reads (returning the fetched 32-bit words, `none` on failure) and the
forward-scanning shader-size computation. -/
structure Pm4Env where
  reg_name : Nat → String
  read_vram : Nat → Nat → Nat → Option (List Nat)
  compute_shader_size : Nat → Nat → Nat

/-- One VM read request issued by the decoder (vmid, address, byte size). -/
structure ReadReq where
  vmid : Nat
  addr : Nat
  size : Nat
  deriving Repr, DecidableEq

/-- Embeds `add_shader` (lines 115-145): append one shader carrying a frozen
sorted copy of the register pairs; size comes from
`umr_compute_shader_size` unless shader following is disabled. -/
def add_shader (opts : Pm4Opts) (env : Pm4Env) (shader : List umr_shaders_pgm)
    (vmid shader_addr : Nat) (type : ShaderType) (reg_pairs : List umr_shader_reg_pair) :
    List umr_shaders_pgm :=
  shader ++
    [{ vmid := vmid
       addr := shader_addr
       size :=
         if opts.no_follow_shader = false then env.compute_shader_size vmid shader_addr
         else 1
       type := type
       regs := umr_copy_regpairs reg_pairs }]

/-- The hi/lo register-pair table of `process_shaders` (lines 255-269);
the `bitname`/`gfx` columns sit in an `#if 0` block and are unused. -/
def shader_types_table : List (String × String × ShaderType) :=
  [("COMPUTE_PGM_HI", "COMPUTE_PGM_LO", .compute),
   ("SPI_SHADER_PGM_HI_VS", "SPI_SHADER_PGM_LO_VS", .vertex),
   ("SPI_SHADER_PGM_HI_PS", "SPI_SHADER_PGM_LO_PS", .pixel),
   ("SPI_SHADER_PGM_HI_ES", "SPI_SHADER_PGM_LO_ES", .es),
   ("SPI_SHADER_PGM_HI_GS", "SPI_SHADER_PGM_LO_GS", .gs),
   ("SPI_SHADER_PGM_HI_HS", "SPI_SHADER_PGM_LO_HS", .hs),
   ("SPI_SHADER_PGM_HI_LS", "SPI_SHADER_PGM_LO_LS", .ls)]

/-- The shader address formed from a hi/lo register pair (line 324):
`(((uint64_t)hi) << 40) | (((uint64_t)lo) << 8)` in 64-bit arithmetic. -/
def shader_pair_addr (hi lo : Nat) : Nat :=
  (((hi % 2 ^ 32) <<< 40) % 2 ^ 64) ||| ((lo % 2 ^ 32) <<< 8)

/-- One iteration of the `process_shaders` loop body (lines 285-328) for a
table entry: filter by the enable flag, look the hi/lo names up by partial
match, and when both are present and either half is non-zero mark them used
and append one shader. -/
def process_shaders_entry (opts : Pm4Opts) (env : Pm4Env) (vmid : Nat)
    (st : List umr_shaders_pgm × List umr_shader_reg_pair)
    (t : String × String × ShaderType) :
    List umr_shaders_pgm × List umr_shader_reg_pair :=
  if shader_enabled opts t.2.2 = false then st
  else
    match umr_shader_find_partial_regpair st.2 t.1,
        umr_shader_find_partial_regpair st.2 t.2.1 with
    | some hi, some lo =>
      if hi.value ≠ 0 ∨ lo.value ≠ 0 then
        let pairs := mark_used_regpair (mark_used_regpair st.2 t.1) t.2.1
        (add_shader opts env st.1 vmid (shader_pair_addr hi.value lo.value) t.2.2 pairs,
         pairs)
      else st
    | _, _ => st

/-- Embeds `process_shaders` (lines 251-329): compute jobs consider only the
`COMPUTE_PGM_*` pair, draw jobs the six graphics-stage pairs. -/
def process_shaders (opts : Pm4Opts) (env : Pm4Env) (vmid : Nat)
    (shader : List umr_shaders_pgm) (reg_pairs : List umr_shader_reg_pair)
    (compute_jobs : Bool) : List umr_shaders_pgm × List umr_shader_reg_pair :=
  (if compute_jobs then shader_types_table.take 1 else shader_types_table.drop 1).foldl
    (process_shaders_entry opts env vmid) (shader, reg_pairs)

/-- Non-recursive per-packet data of `struct umr_pm4_stream`. -/
structure Pm4Meta where
  header : Nat := 0
  pkttype : Nat := 0
  n_words : Nat := 0
  ib_offset : Nat := 0
  pkt0off : Nat := 0
  opcode : Nat := 0
  words : List Nat := []
  shader : List umr_shaders_pgm := []
  ib_source_addr : Nat := 0
  ib_source_vmid : Nat := 0
  deriving Repr, DecidableEq

/-- A decoded PM4 packet node; `ib` is the owned child stream for
indirect-buffer packets (`none` when no IB was followed). -/
inductive Pm4Node where
  | mk (meta : Pm4Meta) (ib : Option (List Pm4Node))

/-- Packet metadata of a node. -/
def Pm4Node.meta : Pm4Node → Pm4Meta
  | .mk m _ => m

/-- Child indirect-buffer stream of a node. -/
def Pm4Node.ib : Pm4Node → Option (List Pm4Node)
  | .mk _ i => i

/-- Embeds `fetch_word` for PM4 (lines 39-49): out-of-bounds offsets read as
0 (the C additionally latches `stream->invalid`, which only the opcode
presentation pass consumes). -/
def pm4_fetch (ps : Pm4Meta) (off : Nat) : Nat :=
  if ps.n_words ≤ off then 0 else ps.words.getD off 0 % 2 ^ 32

/-- UVD indirect-buffer accumulator (`uvd_ib` in `umr_pm4_decode_stream`). -/
structure UvdState where
  n : Nat := 0
  size : Nat := 0
  vmid : Nat := 0
  addr : Nat := 0
  deriving Repr, DecidableEq

/-- Register writes appended by the `SET_CONTEXT_REG`-style packets
(opcodes 0x69 / 0x79 / 0x76 / 0x9B): word `n` (for `n` in `[1, n_words)`)
is written to register offset `base + n - 1` at IB offset `ib_addr + 4 n`. -/
def pm4_add_run_of_regs (env : Pm4Env) (vmid ib_addr base : Nat) (ps : Pm4Meta)
    (regs : List umr_shader_reg_pair) : List umr_shader_reg_pair :=
  (List.range' 1 (ps.n_words - 1)).foldl
    (fun rs n =>
      umr_shader_add_reg_pair rs (env.reg_name (base + (n - 1))) (pm4_fetch ps n) vmid
        (ib_addr + 4 * n))
    regs

/-- Register writes appended by the `SET_*_REG_PAIRS` packets (opcodes
0xB8 / 0xBA / 0xBE): doublet `k` holds a register offset and a value. -/
def pm4_add_reg_pairs (env : Pm4Env) (vmid ib_addr base : Nat) (ps : Pm4Meta)
    (regs : List umr_shader_reg_pair) : List umr_shader_reg_pair :=
  (List.range ((ps.n_words + 1) / 2)).foldl
    (fun rs k =>
      umr_shader_add_reg_pair rs
        (env.reg_name (base + (pm4_fetch ps (2 * k) &&& 0xFFFF)))
        (pm4_fetch ps (2 * k + 1)) vmid (ib_addr + 8 * k))
    regs

/-- Register writes appended by the `SET_SH_REG_PAIRS_PACKED*` packets
(opcodes 0xBB-0xBD): triplet `t` carries two packed register offsets in word
`1 + 3 t` and their values in the following two words. -/
def pm4_add_packed_reg_pairs (env : Pm4Env) (vmid ib_addr : Nat) (ps : Pm4Meta)
    (regs : List umr_shader_reg_pair) : List umr_shader_reg_pair :=
  (List.range ((ps.n_words - 1 + 2) / 3)).foldl
    (fun rs t =>
      (List.range 2).foldl
        (fun rs m =>
          umr_shader_add_reg_pair rs
            (env.reg_name (0x2C00 + ((pm4_fetch ps (1 + 3 * t) >>> (16 * m)) &&& 0xFFFF)))
            (pm4_fetch ps (1 + 3 * t + m + 1)) vmid (ib_addr + 8 + 12 * t + 4 * m))
        rs)
    regs

/-- The declared body word count of a PM4 packet header
(lines 612-620): `((hdr >> 16) + 1) & 0x3FFF`, decremented -- in 32-bit
arithmetic -- for type-2 packets. -/
def pm4_nwords_of_hdr (hdr : Nat) : Nat :=
  let n := ((hdr >>> 16) + 1) &&& 0x3FFF
  if hdr >>> 30 = 2 then sub32 n 1 else n

/-- The PM4 opcodes that schedule compute shaders (lines 349-354). -/
def pm4_compute_dispatch_opcodes : List Nat := [0x15, 0x16, 0xA7, 0xAA, 0xAD]

/-- The PM4 opcodes that schedule graphics shaders (lines 356-362). -/
def pm4_gfx_draw_opcodes : List Nat := [0x4C, 0x4D, 0x25, 0x27, 0x2D, 0x38]

mutual

/-- Embeds `umr_pm4_decode_stream` (lines 581-708).  `nwords` is the 32-bit
word count passed by the caller (the C trusts it to match the buffer).  When
`nwords = 0` the `while` loop never runs and the zero-initialized head node
is returned as-is.  Returns the node list, the updated register tracker and
the trace of VM reads issued for followed IBs. -/
def umr_pm4_decode_stream (fuel : Nat) (env : Pm4Env) (opts : Pm4Opts)
    (vmid from_addr : Nat) (ws : List Nat) (nwords : Nat)
    (regs : List umr_shader_reg_pair) :
    List Pm4Node × List umr_shader_reg_pair × List ReadReq :=
  if nwords = 0 then ([.mk {} none], regs, [])
  else pm4_loop fuel env opts vmid from_addr ws nwords {} regs
termination_by 3 * fuel + 1

/-- The per-packet `while (nwords)` loop of `umr_pm4_decode_stream`,
threading the register tracker and the UVD accumulator.  Arithmetic on
`nwords`, the declared word count and the stream pointer advance is 32-bit,
exactly as in the C (so a type-2 header whose masked count decrements to
`0xFFFFFFFF` makes the loop fail to advance; `fuel` bounds that livelock). -/
def pm4_loop (fuel : Nat) (env : Pm4Env) (opts : Pm4Opts) (vmid ib_addr : Nat)
    (ws : List Nat) (nwords : Nat) (uvd : UvdState) (regs : List umr_shader_reg_pair) :
    List Pm4Node × List umr_shader_reg_pair × List ReadReq :=
  match fuel with
  | 0 => ([], regs, [])
  | fuel + 1 =>
    let hdr := ws.getD 0 0 % 2 ^ 32
    let pkttype := hdr >>> 30
    let n_words := pm4_nwords_of_hdr hdr
    if nwords < (1 + n_words) % 2 ^ 32 then ([], regs, [])
    else
      let meta : Pm4Meta :=
        { header := hdr, pkttype := pkttype, n_words := n_words, ib_offset := ib_addr,
          pkt0off := if pkttype = 0 then hdr &&& 0xFFFF else 0,
          opcode := if pkttype = 3 then (hdr >>> 8) &&& 0xFF else 0,
          words := (ws.drop 1).take n_words }
      let step : Pm4Meta × Option (List Pm4Node) × UvdState ×
          List umr_shader_reg_pair × List ReadReq :=
        if pkttype = 3 then
          let r := parse_pm4 fuel env opts vmid (ib_addr + 4) meta regs
          (r.1, r.2.1, uvd, r.2.2.1, r.2.2.2)
        else if pkttype = 0 then
          let name := env.reg_name meta.pkt0off
          let uvd :=
            if hasSub name "mmUVD_LMI_RBC_IB_VMID" then
              { uvd with
                vmid := pm4_fetch meta 0 ||| (if opts.familyLEVi then 0 else opts.mm_hub_bits),
                n := uvd.n ||| 1 }
            else if hasSub name "mmUVD_LMI_RBC_IB_64BIT_BAR_LOW" then
              { uvd with addr := uvd.addr ||| pm4_fetch meta 0, n := uvd.n ||| 2 }
            else if hasSub name "mmUVD_LMI_RBC_IB_64BIT_BAR_HIGH" then
              { uvd with addr := uvd.addr ||| (pm4_fetch meta 0 <<< 32), n := uvd.n ||| 4 }
            else if hasSub name "mmUVD_RBC_IB_SIZE" then
              { uvd with size := pm4_fetch meta 0 * 4, n := uvd.n ||| 8 }
            else uvd
          let uvd := if uvd.n = 14 then { uvd with vmid := 0, n := 15 } else uvd
          if opts.no_follow_ib = false ∧ uvd.n = 15 then
            match env.read_vram uvd.vmid uvd.addr uvd.size with
            | none => (meta, none, {}, regs, [⟨uvd.vmid, uvd.addr, uvd.size⟩])
            | some buf =>
              let r := umr_pm4_decode_stream fuel env opts uvd.vmid uvd.addr buf
                (uvd.size / 4) regs
              ({ meta with ib_source_addr := uvd.addr, ib_source_vmid := uvd.vmid },
               some r.1, {}, r.2.1, ⟨uvd.vmid, uvd.addr, uvd.size⟩ :: r.2.2)
          else (meta, none, uvd, regs, [])
        else (meta, none, uvd, regs, [])
      let node := Pm4Node.mk step.1 step.2.1
      let adv := (1 + n_words) % 2 ^ 32
      let nwords := sub32 nwords adv
      if nwords = 0 then ([node], step.2.2.2.1, step.2.2.2.2)
      else
        let r := pm4_loop fuel env opts vmid ((ib_addr + 4 * adv % 2 ^ 32) % 2 ^ 64)
          (ws.drop adv) nwords step.2.2.1 step.2.2.2.1
        (node :: r.1, r.2.1, step.2.2.2.2 ++ r.2.2)
termination_by 3 * fuel

/-- Embeds `parse_pm4` (lines 341-489): register-set opcodes feed the
tracker, dispatch/draw opcodes run shader discovery, and the
`INDIRECT_BUFFER` opcodes read and recursively decode a child IB (skipped
entirely when the declared size exceeds 8 MiB).  Returns the packet metadata
(with discovered shaders and IB source attached), the child stream, the
updated tracker and the VM reads issued. -/
def parse_pm4 (fuel : Nat) (env : Pm4Env) (opts : Pm4Opts) (vmid ib_addr : Nat)
    (ps : Pm4Meta) (regs : List umr_shader_reg_pair) :
    Pm4Meta × Option (List Pm4Node) × List umr_shader_reg_pair × List ReadReq :=
  if ps.opcode ∈ pm4_compute_dispatch_opcodes then
    let r := process_shaders opts env vmid ps.shader regs true
    ({ ps with shader := r.1 }, none, r.2, [])
  else if ps.opcode ∈ pm4_gfx_draw_opcodes then
    let r := process_shaders opts env vmid ps.shader regs false
    ({ ps with shader := r.1 }, none, r.2, [])
  else if ps.opcode = 0x69 then
    (ps, none,
     pm4_add_run_of_regs env vmid ib_addr ((pm4_fetch ps 0 &&& 0xFFFF) + 0xA000) ps regs, [])
  else if ps.opcode = 0x79 then
    (ps, none,
     pm4_add_run_of_regs env vmid ib_addr ((pm4_fetch ps 0 &&& 0xFFFF) + 0xC000) ps regs, [])
  else if ps.opcode = 0xB8 then
    (ps, none, pm4_add_reg_pairs env vmid ib_addr 0xA000 ps regs, [])
  else if ps.opcode = 0xBA then
    (ps, none, pm4_add_reg_pairs env vmid ib_addr 0x2C00 ps regs, [])
  else if ps.opcode = 0xBB ∨ ps.opcode = 0xBC ∨ ps.opcode = 0xBD then
    (ps, none, pm4_add_packed_reg_pairs env vmid ib_addr ps regs, [])
  else if ps.opcode = 0xBE then
    (ps, none, pm4_add_reg_pairs env vmid ib_addr 0xC000 ps regs, [])
  else if ps.opcode = 0x76 ∨ ps.opcode = 0x9B then
    (ps, none,
     pm4_add_run_of_regs env vmid ib_addr ((pm4_fetch ps 0 &&& 0xFFFF) + 0x2C00) ps regs, [])
  else if ps.opcode = 0x3F ∨ ps.opcode = 0x33 then
    let follow_chained_ib : Bool :=
      if opts.no_follow_chained_ib = false ∧ ps.n_words = 3 then
        decide ((pm4_fetch ps 2 >>> 20) &&& 1 = 1)
      else false
    if opts.no_follow_ib = false ∨ follow_chained_ib = true then
      let ib_target := (pm4_fetch ps 0 &&& 0xFFFFFFFC) ||| ((pm4_fetch ps 1 &&& 0xFFFF) <<< 32)
      let size := (pm4_fetch ps 2 &&& 0xFFFFF) * 4
      if 1024 * 1024 * 8 < size then (ps, none, regs, [])
      else
        let tvmid0 := (pm4_fetch ps 2 >>> 24) &&& 0xF
        let tvmid := if tvmid0 = 0 then vmid else tvmid0
        match env.read_vram tvmid ib_target size with
        | none => (ps, none, regs, [⟨tvmid, ib_target, size⟩])
        | some buf =>
          let r := umr_pm4_decode_stream fuel env opts tvmid ib_target buf (size / 4) regs
          ({ ps with ib_source_addr := ib_target, ib_source_vmid := tvmid },
           some r.1, r.2.1, ⟨tvmid, ib_target, size⟩ :: r.2.2)
    else (ps, none, regs, [])
  else (ps, none, regs, [])
termination_by 3 * fuel + 2

end

/-!
### HSA/AQL stream decoder (src/lib/packet/hsa/read_hsa_stream.c)
-/

/-- ASIC oracles for the HSA decoder: VM reads, the shader-size scan, the
GFX block name and major version used to synthesize register names, and the
`no_follow_shader` option. -/
structure HsaEnv where
  read_vram : Nat → Nat → Nat → Option (List Nat)
  compute_shader_size : Nat → Nat → Nat
  gfxname : String
  gfx_maj : Nat
  no_follow_shader : Bool

/-- The `kernel_dispatch` payload attached to a `HSA_KERNEL_DISPATCH`
packet. -/
structure HsaKernelDispatch where
  kernel_object : List Nat := []
  kernel_object_va : Nat := 0
  kernel_code_entry_byte_offset : Nat := 0
  kernarg_size : Nat := 0
  kernarg_va : Nat := 0
  compute_pgm_rsrc1 : Nat := 0
  compute_pgm_rsrc2 : Nat := 0
  compute_pgm_rsrc3 : Nat := 0
  kernarg_data : Option (List Nat) := none
  deriving Repr, DecidableEq

/-- One decoded HSA packet, from `struct umr_hsa_stream`. -/
structure umr_hsa_stream where
  header : Nat := 0
  type : Nat := 0
  barrier : Nat := 0
  acquire_fence_scope : Nat := 0
  release_fence_scope : Nat := 0
  nwords : Nat := 0
  words : List Nat := []
  invalid : Bool := false
  shader : List umr_shaders_pgm := []
  kernel_dispatch : HsaKernelDispatch := {}
  deriving Repr, DecidableEq

/-- Embeds `parse_kernel_object` (read_hsa_stream.c lines 82-146): read the
64-byte kernel descriptor through the VM, extract the code entry point and
the `COMPUTE_PGM_RSRC*` words, register one compute shader carrying them as
register pairs, and read the kernarg block.  Returns the updated packet and
the VM reads issued. -/
def parse_kernel_object (env : HsaEnv) (stream : umr_hsa_stream)
    (kernel_object kernarg : Nat) : umr_hsa_stream × List ReadReq :=
  match env.read_vram 0 kernel_object (512 / 8) with
  | none => (stream, [⟨0, kernel_object, 512 / 8⟩])
  | some ko =>
    let kow := fun (i : Nat) => ko.getD i 0 % 2 ^ 32
    let kd : HsaKernelDispatch :=
      { kernel_object := ko
        kernel_object_va := kernel_object
        kernel_code_entry_byte_offset :=
          (kernel_object + (kow (128 / 32) ||| (kow (128 / 32 + 1) <<< 32))) % 2 ^ 64
        kernarg_size := kow (64 / 32)
        kernarg_va := kernarg
        compute_pgm_rsrc1 := kow (384 / 32)
        compute_pgm_rsrc2 := kow (416 / 32)
        compute_pgm_rsrc3 := kow (352 / 32) }
    let pre := env.gfxname ++ "." ++ (if env.gfx_maj ≤ 10 then "mm" else "reg")
    let rp := umr_shader_add_reg_pair [] (pre ++ "COMPUTE_PGM_RSRC1") kd.compute_pgm_rsrc1 0
      kernel_object
    let rp := umr_shader_add_reg_pair rp (pre ++ "COMPUTE_PGM_RSRC2") kd.compute_pgm_rsrc2 0
      kernel_object
    let rp := umr_shader_add_reg_pair rp (pre ++ "COMPUTE_PGM_RSRC3") kd.compute_pgm_rsrc3 0
      kernel_object
    let sh : umr_shaders_pgm :=
      { vmid := 0
        addr := kd.kernel_code_entry_byte_offset
        size :=
          if env.no_follow_shader = false then
            env.compute_shader_size 0 kd.kernel_code_entry_byte_offset
          else 1
        type := .compute
        regs := umr_copy_regpairs rp }
    let kd := { kd with kernarg_data := env.read_vram 0 kernarg kd.kernarg_size }
    ({ stream with shader := stream.shader ++ [sh], kernel_dispatch := kd },
     [⟨0, kernel_object, 512 / 8⟩, ⟨0, kernarg, kd.kernarg_size⟩])

/-- The per-packet `while (nwords)` loop of `umr_hsa_decode_stream`
(lines 172-225): fixed 32-halfword packets over the 16-bit view of the
buffer; a trailing partial packet (fewer than 32 halfwords remaining) is
dropped without error. -/
def hsa_loop (env : HsaEnv) (w16 : List Nat) (nwords : Nat) :
    List umr_hsa_stream × List ReadReq :=
  let t16 := w16.getD 0 0 % 2 ^ 16
  let ms0 : umr_hsa_stream :=
    { header := t16
      type := t16 &&& 0xFF
      barrier := (t16 >>> 8) &&& 1
      acquire_fence_scope := (t16 >>> 9) &&& 3
      release_fence_scope := (t16 >>> 11) &&& 3
      nwords := 32
      words := (w16.drop 1).take 31 }
  if _h : nwords < 32 then ([], [])
  else
    let step : umr_hsa_stream × List ReadReq :=
      if ms0.type = 2 then
        let w := fun (i : Nat) => ms0.words.getD i 0 % 2 ^ 16
        let kernobj := w 15 ||| (w 16 <<< 16) ||| (w 17 <<< 32) ||| (w 18 <<< 48)
        let kernarg := w 19 ||| (w 20 <<< 16) ||| (w 21 <<< 32) ||| (w 22 <<< 48)
        parse_kernel_object env ms0 kernobj kernarg
      else (ms0, [])
    let nwords2 := nwords - 32
    if _h2 : nwords2 = 0 then ([step.1], step.2)
    else
      let r := hsa_loop env (w16.drop 32) nwords2
      (step.1 :: r.1, step.2 ++ r.2)
termination_by nwords
decreasing_by omega

/-- Embeds `umr_hsa_decode_stream` (lines 157-236): the 32-bit buffer is
reinterpreted as 16-bit words (`nwords *= 2` in 32-bit arithmetic); a zero
word count returns the zero-initialized head node untouched. -/
def umr_hsa_decode_stream (env : HsaEnv) (ws : List Nat) (nwords : Nat) :
    List umr_hsa_stream × List ReadReq :=
  let nwords := nwords * 2 % 2 ^ 32
  let w16 := ws.flatMap (fun w => [w % 2 ^ 16, w / 2 ^ 16 % 2 ^ 16])
  if nwords = 0 then ([{}], []) else hsa_loop env w16 nwords

/-!
### Opcode presentation walkers (claims about UI-callback ordering)

The `umr_stream_decode_ui` callback set is reified as an ordered list of
events; the payloads carry the field name and computed value, while the
IB-offset bookkeeping passed alongside (which does not alter the callback
sequence) is omitted.
-/

/-- One UI callback invocation. -/
inductive DecEvent where
  | startIb (ib_addr ib_vmid : Nat)
  | startOp (name : String) (opcode : Nat)
  | fld (name : String) (value : Nat)
  | shaderEv (addr : Nat)
  | dataEv (addr : Nat)
  | unh
  | done
  deriving Repr, DecidableEq

/-- Embeds the HSA `fetch_word` (lines 238-248): out-of-bounds offsets read
as 0 and latch `invalid`. -/
def hsa_fetch (ms : umr_hsa_stream) (off : Nat) : Nat :=
  if ms.nwords ≤ off then 0 else ms.words.getD off 0 % 2 ^ 16

/-- The `hsa_types[]` name table with the `STR_LOOKUP` default. -/
def hsa_type_name (t : Nat) : String :=
  (["HSA_VENDOR_SPECIFIC", "HSA_INVALID", "HSA_KERNEL_DISPATCH", "HSA_BARRIER_AND",
    "HSA_AGENT_DISPATCH", "HSA_BARRIER_OR"].getD t "HSA_UNK")

/-- Field shapes of the HSA per-opcode decode: a 2-bit dimension count, a
16-bit word, a 32-bit doubleword, or a 64-bit quantity at a halfword index. -/
inductive HField where
  | h3 (name : String) (idx : Nat)
  | h16 (name : String) (idx : Nat)
  | h32 (name : String) (idx : Nat)
  | h64 (name : String) (idx : Nat)
  deriving Repr, DecidableEq

/-- The field events of one HSA case body, in source order. -/
def hsa_field_event (ms : umr_hsa_stream) : HField → DecEvent
  | .h3 n i => .fld n (hsa_fetch ms i &&& 3)
  | .h16 n i => .fld n (hsa_fetch ms i)
  | .h32 n i => .fld n (hsa_fetch ms i ||| (hsa_fetch ms (i + 1) <<< 16))
  | .h64 n i =>
    .fld n (hsa_fetch ms i ||| (hsa_fetch ms (i + 1) <<< 16) ||| (hsa_fetch ms (i + 2) <<< 32)
      ||| (hsa_fetch ms (i + 3) <<< 48))

/-- Does decoding this field fetch an offset beyond `nwords` (latching the
`invalid` flag)? -/
def hsa_field_oob (nwords : Nat) : HField → Bool
  | .h3 _ i | .h16 _ i => nwords ≤ i
  | .h32 _ i => nwords ≤ i + 1
  | .h64 _ i => nwords ≤ i + 3

/-- The `KERNEL_DISPATCH` (type 2) field list (lines 311-333). -/
def hsa_dispatch_fields : List HField :=
  [.h3 "setup_dimensions" 0, .h16 "workgroup_size_x" 1, .h16 "workgroup_size_y" 2,
   .h16 "workgroup_size_z" 3, .h16 "reserved0" 4, .h32 "grid_size_x" 5,
   .h32 "grid_size_y" 7, .h32 "grid_size_z" 9, .h32 "private_segment_size" 11,
   .h32 "group_segment_size" 13, .h64 "kernel_object" 15, .h64 "kernarg_address" 19,
   .h64 "reserved2" 23, .h64 "completion_signal" 27]

/-- The `AGENT_DISPATCH` (type 4) field list (lines 335-350). -/
def hsa_agent_fields : List HField :=
  [.h16 "type" 0, .h32 "reserved0" 1, .h64 "return_address" 3, .h64 "arg[0]" 7,
   .h64 "arg[1]" 11, .h64 "arg[2]" 15, .h64 "arg[3]" 19, .h64 "reserved2" 23,
   .h64 "completion_signal" 27]

/-- The `BARRIER_AND`/`BARRIER_OR` (types 3 and 5) field list (lines
352-366). -/
def hsa_barrier_fields : List HField :=
  [.h16 "reserved0" 0, .h32 "reserved1" 1, .h64 "dep_signal[0]" 3, .h64 "dep_signal[1]" 7,
   .h64 "dep_signal[2]" 11, .h64 "dep_signal[3]" 15, .h64 "dep_signal[4]" 19,
   .h64 "reserved2" 23, .h64 "completion_signal" 27]

/-- The per-packet body of `umr_hsa_decode_stream_opcodes` (lines 274-368):
the events emitted for one packet and the packet's `invalid` flag after its
fetches.  Type-1 packets are re-examined heuristically (matching the
kernel-object/kernarg high words against the HQD base) only when both
`aql_heuristic` and an active user queue are configured. -/
def hsa_packet_step (aql_heuristic uq_active : Bool) (hqd_base : Nat)
    (ms : umr_hsa_stream) : List DecEvent × Bool :=
  if ms.type = 1 then
    if ¬ (aql_heuristic ∧ uq_active) then ([.startOp "HSA_INVALID" ms.type], ms.invalid)
    else
      let t64a := hsa_fetch ms 15 ||| (hsa_fetch ms 16 <<< 16) ||| (hsa_fetch ms 17 <<< 32)
        ||| (hsa_fetch ms 18 <<< 48)
      let inv1 := ms.invalid || decide (ms.nwords ≤ 18)
      if t64a >>> 32 ≠ hqd_base >>> 32 then ([.startOp "HSA_INVALID" ms.type], inv1)
      else
        let t64b := hsa_fetch ms 19 ||| (hsa_fetch ms 20 <<< 16) ||| (hsa_fetch ms 21 <<< 32)
          ||| (hsa_fetch ms 22 <<< 48)
        let inv2 := inv1 || decide (ms.nwords ≤ 22)
        if t64b >>> 32 ≠ hqd_base >>> 32 then ([.startOp "HSA_INVALID" ms.type], inv2)
        else
          (.startOp "HSA_KERNEL_DISPATCH (heuristic)" ms.type ::
            hsa_dispatch_fields.map (hsa_field_event ms),
           inv2 || hsa_dispatch_fields.any (hsa_field_oob ms.nwords))
  else
    let pre : List DecEvent := [.startOp (hsa_type_name ms.type) ms.type]
    if ms.type = 2 then
      (pre ++ hsa_dispatch_fields.map (hsa_field_event ms),
       ms.invalid || hsa_dispatch_fields.any (hsa_field_oob ms.nwords))
    else if ms.type = 4 then
      (pre ++ hsa_agent_fields.map (hsa_field_event ms),
       ms.invalid || hsa_agent_fields.any (hsa_field_oob ms.nwords))
    else if ms.type = 3 ∨ ms.type = 5 then
      (pre ++ hsa_barrier_fields.map (hsa_field_event ms),
       ms.invalid || hsa_barrier_fields.any (hsa_field_oob ms.nwords))
    else (pre, ms.invalid)

/-- The shader/kernarg presentation block (lines 373-381), reached only when
the packet was not invalidated. -/
def hsa_shader_events (ms : umr_hsa_stream) : List DecEvent :=
  if ms.shader.isEmpty then []
  else
    ms.shader.map (fun p => .shaderEv p.addr) ++
      (match ms.kernel_dispatch.kernarg_data with
       | some _ => [.dataEv ms.kernel_dispatch.kernarg_va]
       | none => [])

/-- The `while (stream && opcodes-- && stream->nwords)` loop of
`umr_hsa_decode_stream_opcodes`: emits each packet's events, stops early
(skipping the shader block and keeping the current packet as the remaining
stream) as soon as a packet is invalid. -/
def hsa_opcode_loop (aql_heuristic uq_active : Bool) (hqd_base : Nat) :
    List umr_hsa_stream → Nat → List DecEvent × List umr_hsa_stream
  | [], _ => ([], [])
  | ms :: rest, 0 => ([], ms :: rest)
  | ms :: rest, opcodes + 1 =>
    if ms.nwords = 0 then ([], ms :: rest)
    else
      let step := hsa_packet_step aql_heuristic uq_active hqd_base ms
      if step.2 then (step.1, ms :: rest)
      else
        let r := hsa_opcode_loop aql_heuristic uq_active hqd_base rest opcodes
        (step.1 ++ hsa_shader_events ms ++ r.1, r.2)

/-- Embeds `umr_hsa_decode_stream_opcodes` (lines 265-389): `start_ib`
first, the per-packet events, then exactly one `done` -- also on early
termination.  Returns the events and the first packet not decoded. -/
def umr_hsa_decode_stream_opcodes (aql_heuristic uq_active : Bool) (hqd_base : Nat)
    (stream : List umr_hsa_stream) (ib_addr ib_vmid opcodes : Nat) :
    List DecEvent × List umr_hsa_stream :=
  let r := hsa_opcode_loop aql_heuristic uq_active hqd_base stream opcodes
  (DecEvent.startIb ib_addr ib_vmid :: (r.1 ++ [DecEvent.done]), r.2)

/-- One decoded UMSCH packet, from `struct umr_umsch_stream`. -/
structure umr_umsch_stream where
  type : Nat := 0
  opcode : Nat := 0
  nwords : Nat := 0
  header_dw : Nat := 0
  words : List Nat := []
  invalid : Bool := false
  deriving Repr, DecidableEq

/-- Embeds the UMSCH `fetch_word` (read_umsch_stream.c lines 116-126). -/
def umsch_fetch (ms : umr_umsch_stream) (off : Nat) : Nat :=
  if ms.nwords ≤ off then 0 else ms.words.getD off 0 % 2 ^ 32

/-- Field shapes of the UMSCH per-opcode decode: a 32-bit word, a 64-bit
quantity, or a `BITS(x, a, b)` slice, at a word index. -/
inductive UField where
  | w32 (name : String) (idx : Nat)
  | w64 (name : String) (idx : Nat)
  | bits (name : String) (idx a b : Nat)
  deriving Repr, DecidableEq

/-- The field event one `UField` produces. -/
def umsch_field_event (ms : umr_umsch_stream) : UField → DecEvent
  | .w32 n i => .fld n (umsch_fetch ms i)
  | .w64 n i => .fld n (umsch_fetch ms i ||| (umsch_fetch ms (i + 1) <<< 32))
  | .bits n i a b => .fld n ((umsch_fetch ms i >>> a) &&& ((1 <<< (b - a)) - 1))

/-- Does decoding this field fetch an offset beyond `nwords`? -/
def umsch_field_oob (nwords : Nat) : UField → Bool
  | .w32 _ i | .bits _ i _ _ => nwords ≤ i
  | .w64 _ i => nwords ≤ i + 1

/-- Opcode names of the UMSCH scheduler API (cases 0x00-0x0C). -/
def umsch_opcode_name : Nat → String
  | 0x00 => "SET_HW_RESOURCES"
  | 0x01 => "SET_SCHEDULING_CONFIG"
  | 0x02 => "ADD_QUEUE"
  | 0x03 => "REMOVE_QUEUE"
  | 0x04 => "PERFORM_YIELD"
  | 0x05 => "SUSPEND"
  | 0x06 => "RESUME"
  | 0x07 => "RESET"
  | 0x08 => "SET_LOG_BUFFER"
  | 0x09 => "CHANGE_CONTEXT_PRIORITY"
  | 0x0A => "QUERY_SCHEDULER_STATUS"
  | 0x0B => "UPDATE_AFFINITY"
  | 0x0C => "UPDATE_ROOT_PAGE_TABLE"
  | _ => "UMSCH_UNK"

/-- The field lists of the UMSCH scheduler opcodes (read_umsch_stream.c
lines 184-371), with the 4.0.5 instance counts (`MAX_VCN0_INSTANCES = 1`,
`MAX_VCN1_INSTANCES = 1`, `MAX_VCN_INSTANCES = 2`, `MAX_VPE_INSTANCES = 1`,
`UMSCH_MAX_HWIP_SEGMENT = 8`, `AMD_PRIORITY_NUM_LEVELS = 4`) unrolled into
word indices. -/
def umsch_case_fields : Nat → List UField
  | 0x00 =>
    [.w32 "vmid_mask_mm_vcn" 0, .w32 "vmid_mask_mm_vpe" 1, .w32 "collaboration_mask_vpe" 2,
     .w32 "engine_mask" 3, .w32 "logging_vmid" 4] ++
    (List.range 1).map (fun j => .w32 "vcn0_hqd_mask" (5 + j)) ++
    (List.range 1).map (fun j => .w32 "vcn1_hqd_mask" (6 + j)) ++
    (List.range 2).map (fun j => .w32 "vcn_hqd_mask" (7 + j)) ++
    (List.range 1).map (fun j => .w32 "vpe_hqd_mask" (9 + j)) ++
    [.w64 "g_sch_ctx_gpu_mc_ptr" 10] ++
    (List.range 8).map (fun j => .w32 "mmhub_base" (12 + j)) ++
    [.w32 "mmhub_version" 20] ++
    (List.range 8).map (fun j => .w32 "osssys_base" (21 + j)) ++
    [.w32 "osssys_version" 29, .w32 "vcn_version" 30, .w32 "vpe_version" 31,
     .w64 "api_completion_fence_addr" 32, .w32 "api_completion_fence_value" 34,
     .bits "disable_reset" 35 0 1, .bits "disable_umsch_log" 35 1 2,
     .bits "enable_level_process_quantum_check" 35 2 3, .bits "is_vcn0_enabled" 35 3 4,
     .bits "is_vcn1_enabled" 35 4 5, .bits "use_rs64mem_for_proc_ctx_csa" 35 5 6,
     .bits "enable_umsch_stb" 35 6 7, .bits "reserved" 35 7 31]
  | 0x01 =>
    (List.range 4).map (fun j => .w64 "grace_period_other_levels" (2 * j)) ++
    (List.range 4).map (fun j => .w64 "process_quantum_for_level" (8 + 2 * j)) ++
    (List.range 4).map (fun j => .w64 "process_grace_period_same_level" (16 + 2 * j)) ++
    [.w32 "normal_yield_percent" 24, .w64 "api_completion_fence_addr" 25,
     .w32 "api_completion_fence_value" 27]
  | 0x02 =>
    [.w32 "process_id" 0, .w64 "page_table_base_addr" 1, .w64 "process_va_start" 3,
     .w64 "process_va_end" 5, .w64 "process_quantum" 7, .w64 "process_csa_addr" 9,
     .w64 "context_quantum" 11, .w64 "context_csa_addr" 13,
     .w32 "inprocess_context_priority" 15, .w32 "context_global_priority_level" 16,
     .w32 "doorbell_offset_0" 17, .w32 "doorbell_offset_1" 18,
     .bits "vcn0Affinity" 19 0 2, .bits "vcn1Affinity" 19 2 4, .bits "reserved" 19 4 31,
     .w64 "mqd_addr" 20, .w64 "h_context" 22, .w64 "h_queue" 24, .w32 "engine_type" 26,
     .w32 "vm_context_cntl" 27, .bits "is_context_suspended" 28 0 1,
     .bits "collaboration_mode" 28 1 2, .bits "mqd_type" 28 2 4, .bits "reserved" 28 4 31,
     .w64 "api_completion_fence_addr" 29, .w32 "api_completion_fence_value" 31,
     .w32 "process_csa_array_index" 32, .w32 "context_csa_array_index" 33,
     .w64 "fence_signal_addr" 34]
  | 0x03 =>
    [.w32 "doorbell_offset_0" 0, .w32 "doorbell_offset_1" 1, .w64 "context_csa_addr" 2,
     .w64 "api_completion_fence_addr" 4, .w32 "api_completion_fence_value" 6,
     .w32 "context_csa_array_index" 7]
  | 0x04 =>
    [.w32 "dummy" 0, .w64 "api_completion_fence_addr" 1, .w32 "api_completion_fence_value" 3]
  | 0x05 =>
    [.w64 "context_csa_addr" 0, .w64 "suspend_fence_addr" 2, .w32 "suspend_fence_value" 4,
     .w64 "api_completion_fence_addr" 5, .w32 "api_completion_fence_value" 7,
     .w32 "context_csa_array_index" 8]
  | 0x06 =>
    [.w32 "resume_option" 0, .w64 "context_csa_addr" 1, .w32 "engine_type" 3,
     .w64 "api_completion_fence_addr" 4, .w32 "api_completion_fence_value" 6,
     .w32 "context_csa_array_index" 7]
  | 0x07 =>
    [.w32 "reset_option" 0, .w64 "doorbell_offset_addr" 1, .w32 "engine_type" 3,
     .w64 "api_completion_fence_addr" 4, .w32 "api_completion_fence_value" 6]
  | 0x08 =>
    [.w32 "log_type" 0, .w64 "logging_buffer_addr" 1, .w32 "number_of_entries" 3,
     .w32 "interrupt_entry" 4, .w64 "api_completion_fence_addr" 5,
     .w32 "api_completion_fence_value" 7]
  | 0x09 =>
    [.w32 "inprocess_context_priority" 0, .w32 "context_global_priority_level" 1,
     .w64 "context_quantum" 2, .w64 "context_csa_addr" 4,
     .w64 "api_completion_fence_addr" 6, .w32 "api_completion_fence_value" 8,
     .w32 "context_csa_array_index" 9]
  | 0x0A =>
    [.w32 "subopcode" 0, .w64 "api_completion_fence_addr" 1,
     .w32 "api_completion_fence_value" 3, .w64 "proc_csa_array_size_addr" 4,
     .w64 "ctx_csa_array_size_addr" 6, .w64 "healthy_addr" 8, .w32 "data[20]" 10]
  | 0x0B =>
    [.bits "vcn0Affinity" 0 0 2, .bits "vcn1Affinity" 0 2 4, .bits "reserved" 0 4 31,
     .w64 "context_csa_addr" 1, .w64 "api_completion_fence_addr" 3,
     .w32 "api_completion_fence_value" 5, .w32 "context_csa_array_index" 6]
  | 0x0C =>
    [.w64 "page_table_base_addr" 0, .w64 "process_csa_addr" 2,
     .w32 "process_csa_array_index" 4, .w64 "api_completion_fence_addr" 5,
     .w32 "api_completion_fence_value" 7]
  | _ => []

/-- The per-packet body of `umr_umsch_decode_stream_opcodes` (lines
178-385): events emitted, the `invalid` flag after the packet's fetches, and
whether the loop exits immediately (a non-scheduler packet type). -/
def umsch_packet_step (hasUnhandled : Bool) (ms : umr_umsch_stream) :
    List DecEvent × Bool × Bool :=
  if ms.type = 1 then
    if ms.opcode ≤ 0x0C then
      let fs := umsch_case_fields ms.opcode
      (.startOp (umsch_opcode_name ms.opcode) ms.opcode :: fs.map (umsch_field_event ms),
       ms.invalid || fs.any (umsch_field_oob ms.nwords), false)
    else if ms.nwords = 0 ∧ ms.header_dw = 0 then
      ([.startOp "UMSCH_UNK" ms.opcode], ms.invalid, false)
    else
      ((if hasUnhandled then [.unh] else []), ms.invalid, false)
  else
    ((if hasUnhandled then [.unh] else []), ms.invalid, true)

/-- The `while (stream && opcodes--)` loop of
`umr_umsch_decode_stream_opcodes`: a non-scheduler packet or an invalidated
packet stops the walk with the current packet as the remaining stream. -/
def umsch_opcode_loop (hasUnhandled : Bool) :
    List umr_umsch_stream → Nat → List DecEvent × List umr_umsch_stream
  | [], _ => ([], [])
  | ms :: rest, 0 => ([], ms :: rest)
  | ms :: rest, opcodes + 1 =>
    let step := umsch_packet_step hasUnhandled ms
    if step.2.2 then (step.1, ms :: rest)
    else if step.2.1 then (step.1, ms :: rest)
    else
      let r := umsch_opcode_loop hasUnhandled rest opcodes
      (step.1 ++ r.1, r.2)

/-- Embeds `umr_umsch_decode_stream_opcodes` (lines 143-396): `start_ib`
first, per-packet events, then exactly one `done` -- also when the walk
stops early on an invalid or non-scheduler packet. -/
def umr_umsch_decode_stream_opcodes (hasUnhandled : Bool)
    (stream : List umr_umsch_stream) (ib_addr ib_vmid opcodes : Nat) :
    List DecEvent × List umr_umsch_stream :=
  let r := umsch_opcode_loop hasUnhandled stream opcodes
  (DecEvent.startIb ib_addr ib_vmid :: (r.1 ++ [DecEvent.done]), r.2)

/-!
### Public entry point `umr_access_vram` (src/lib/vm/read_vram.c)

The dispatcher is modelled with its downstream targets reified as trace
events (the GFX9+ page walk itself is `umr_access_vram_ai` above): the
claims about this function concern its alignment guard, which precedes every
translation and backend access.
-/

/-- Hub selector codes, from `umr.h` (not under src/); bits 8..15 of a vmid
select the hub and only the distinctness of the codes matters below. -/
def UMR_LINEAR_HUB : Nat := 0x100

/-- The process-address-space hub code (see `UMR_LINEAR_HUB`). -/
def UMR_PROCESS_HUB : Nat := 0x500

/-- One downstream action of `umr_access_vram`. -/
inductive MemOp where
  | procMemcpy (write : Bool)
  | linear (addr size : Nat) (write : Bool)
  | translateVi (vmid addr size : Nat) (write : Bool)
  | translateAi (vmid addr size : Nat) (write : Bool)
  deriving Repr, DecidableEq

/-- Embeds `umr_access_vram` (read_vram.c lines 57-152): the word-alignment
guard on address, size and destination pointer, then dispatch to the
process-memory copy, the linear-VRAM backend (with XGMI node routing
reified by the `xgmiOps`/`xgmiAddr` oracles) or the generation-specific
page-walkers.  `maj` comes from `umr_gfx_get_ip_ver`, a pure lookup in the
ASIC description.  Returns the C return code and the ordered downstream
actions. -/
def umr_access_vram (maj : Nat) (familyGTVi : Bool) (use_xgmi : Bool)
    (linearResult viResult aiResult : Int) (xgmiOps : List MemOp) (xgmiAddr : Nat)
    (vmid address size dataAlign : Nat) (write_en : Bool) : Int × List MemOp :=
  if address % 4 ≠ 0 ∨ size % 4 ≠ 0 then (-1, [])
  else if dataAlign % 4 ≠ 0 then (-1, [])
  else if vmid &&& 0xFF00 = UMR_PROCESS_HUB then (0, [.procMemcpy write_en])
  else
    let address :=
      if vmid &&& 0xFF00 ≠ UMR_LINEAR_HUB ∧ familyGTVi then address &&& 0xFFFFFFFFFFFF
      else address
    if vmid &&& 0xFF00 = UMR_LINEAR_HUB then
      if use_xgmi then (linearResult, xgmiOps ++ [.linear xgmiAddr size write_en])
      else (linearResult, [.linear address size write_en])
    else if maj ≤ 8 then (viResult, [.translateVi vmid address size write_en])
    else (aiResult, [.translateAi vmid address size write_en])

/-!
### Auxiliary predicates and concrete instances used by the claims
-/

/-- `ws` parses as a whole number of PM4 packets: each header's declared
length (header word included) neither wraps the 32-bit advance nor exceeds
the remaining words.  This is the precondition under which
`umr_pm4_decode_stream` consumes the buffer exactly. -/
def pm4_complete (ws : List Nat) : Bool :=
  if h : ws = [] then true
  else
    let n_words := pm4_nwords_of_hdr (ws.getD 0 0 % 2 ^ 32)
    decide ((1 + n_words) % 2 ^ 32 = 1 + n_words) && decide (1 + n_words ≤ ws.length) &&
      pm4_complete (ws.drop (1 + n_words))
termination_by ws.length
decreasing_by
  simp only [List.length_drop]
  have hne : ws.length ≠ 0 := fun hl => h (List.length_eq_zero.mp hl)
  omega

/-- The (name, value) view of a tracker entry: the only data the
shader-discovery pass of `process_shaders` reads through its partial-match
lookups (marking an entry used changes neither component). -/
def regpair_pv (p : umr_shader_reg_pair) : String × Nat := (p.regname, p.value)

/-- The amended claim C1 stated from the spec's words: one `(type, addr)`
shader registration per enabled hi/lo pair of the table both of whose halves
are found in the tracker with AT LEAST ONE half non-zero, at address
`(hi << 40) | (lo << 8)`; compared below against the registrations the
source's `process_shaders` performs. -/
def process_shaders_spec (opts : Pm4Opts) (regs : List umr_shader_reg_pair)
    (compute_jobs : Bool) : List (ShaderType × Nat) :=
  ((if compute_jobs then shader_types_table.take 1 else shader_types_table.drop 1).filter
      (fun t => shader_enabled opts t.2.2)).filterMap
    (fun t =>
      match umr_shader_find_partial_regpair regs t.1,
          umr_shader_find_partial_regpair regs t.2.1 with
      | some hi, some lo =>
        if hi.value ≠ 0 ∨ lo.value ≠ 0 then some (t.2.2, shader_pair_addr hi.value lo.value)
        else none
      | _, _ => none)

/-- Is the event one of the bracket callbacks (`start_ib` / `done`) whose
placement the temporal claims constrain? -/
def dec_event_ctl : DecEvent → Bool
  | .done => true
  | .startIb _ _ => true
  | _ => false

/-- A concrete flat (depth-0) VM configuration: a 2-MiB span with a
system-resident page table rooted at 0x10000, used to exercise the span
check of `umr_access_vram_ai` on concrete addresses. -/
def vm_cfg_flat : VmConfig :=
  { maj := 9, min := 0
    page_table_start_addr := 0, page_table_end_addr := 0x1FF000
    page_table_base_addr := 0x10003
    page_table_depth := 0, page_table_block_size := 0
    vm_fb_offset := 0
    system_aperture_low := 0, system_aperture_high := 0
    fb_bottom := 0, fb_top := 0x100000000
    agp_base := 0, agp_bot := 0, agp_top := 0
    sam := 0, user_queue_active := false }

/-- A memory oracle whose every 64-bit location reads as the valid system
PTE 0x3003 (page base 0x3000). -/
def vm_env_const : VmEnv :=
  { access := fun _ _ _ _ => some 0x3003
    gpu_bus_to_cpu_address := fun a => a }

/-- A trivial PM4 oracle environment for concrete decodes. -/
def pm4_env_triv : Pm4Env :=
  { reg_name := fun _ => "reg"
    read_vram := fun _ _ _ => none
    compute_shader_size := fun _ _ => 1 }

/-- A register tracker holding a zero `COMPUTE_PGM_HI` and a non-zero
`COMPUTE_PGM_LO`, the common case of a shader below 2^40. -/
def c1_regs : List umr_shader_reg_pair :=
  [{ regname := "COMPUTE_PGM_HI", value := 0 },
   { regname := "COMPUTE_PGM_LO", value := 0x1000 }]

/-!
## Theorems

General bit-extraction lemmas, then one theorem (plus counterexample and
witness where applicable) per claim.
-/

/-- Shift-then-mask-one extracts a single bit as a division/parity. -/
theorem shr_and_one (e k : Nat) : (e >>> k) &&& 1 = e / 2 ^ k % 2 := by
  rw [Nat.and_one_is_mod, Nat.shiftRight_eq_div_pow]

/-- Shift-then-mask extracts a bit field as division and remainder. -/
theorem shr_and_mask (e k m : Nat) : (e >>> k) &&& (2 ^ m - 1) = e / 2 ^ k % 2 ^ m := by
  rw [Nat.and_pow_two_sub_one_eq_mod, Nat.shiftRight_eq_div_pow]

/-- Masking with a shifted all-ones mask keeps the aligned middle bits:
`e & ((2^n - 1) << k)` equals `e` truncated to `n + k` bits and rounded down
to a multiple of `2^k`. -/
theorem and_mask_shift (e n k : Nat) :
    e &&& ((2 ^ n - 1) * 2 ^ k) = e % 2 ^ (n + k) / 2 ^ k * 2 ^ k := by
  have h1 : (2 ^ n - 1) * 2 ^ k = (2 ^ n - 1) <<< k := by rw [Nat.shiftLeft_eq]
  have h2 : e % 2 ^ (n + k) / 2 ^ k * 2 ^ k = ((e % 2 ^ (n + k)) >>> k) <<< k := by
    rw [Nat.shiftLeft_eq, Nat.shiftRight_eq_div_pow]
  rw [h1, h2]
  apply Nat.eq_of_testBit_eq
  intro i
  simp only [Nat.testBit_and, Nat.testBit_shiftLeft, Nat.testBit_shiftRight,
    Nat.testBit_mod_two_pow, Nat.testBit_two_pow_sub_one]
  by_cases hk : k ≤ i
  · have hik : k + (i - k) = i := by omega
    by_cases hn : i - k < n
    · have h3 : i < n + k := by omega
      simp [hk, hik, hn, h3, Bool.and_comm]
    · have h3 : ¬ i < n + k := by omega
      simp [hk, hik, hn, h3]
  · simp [hk]

/-- Claim C8: on GFX9 and GFX10, `umr_decode_pde_entry` extracts exactly
frag_size = bits 63:59, pte_base_addr = bits 47:6 (64-byte aligned),
valid = bit 0, system = bit 1, coherent = bit 2, pte = bit 54,
further = bit 56, and llc_noalloc = bit 58 only on GFX 10.3+. -/
theorem C8_pde_gfx9_gfx10_layout (min e : Nat) :
    ((umr_decode_pde_entry 9 min e).frag_size = e / 2 ^ 59 % 2 ^ 5 ∧
     (umr_decode_pde_entry 9 min e).pte_base_addr = e % 2 ^ 48 / 2 ^ 6 * 2 ^ 6 ∧
     (umr_decode_pde_entry 9 min e).valid = e % 2 ∧
     (umr_decode_pde_entry 9 min e).system = e / 2 % 2 ∧
     (umr_decode_pde_entry 9 min e).coherent = e / 2 ^ 2 % 2 ∧
     (umr_decode_pde_entry 9 min e).pte = e / 2 ^ 54 % 2 ∧
     (umr_decode_pde_entry 9 min e).further = e / 2 ^ 56 % 2 ∧
     (umr_decode_pde_entry 9 min e).llc_noalloc = 0) ∧
    ((umr_decode_pde_entry 10 min e).frag_size = e / 2 ^ 59 % 2 ^ 5 ∧
     (umr_decode_pde_entry 10 min e).pte_base_addr = e % 2 ^ 48 / 2 ^ 6 * 2 ^ 6 ∧
     (umr_decode_pde_entry 10 min e).valid = e % 2 ∧
     (umr_decode_pde_entry 10 min e).system = e / 2 % 2 ∧
     (umr_decode_pde_entry 10 min e).coherent = e / 2 ^ 2 % 2 ∧
     (umr_decode_pde_entry 10 min e).pte = e / 2 ^ 54 % 2 ∧
     (umr_decode_pde_entry 10 min e).further = e / 2 ^ 56 % 2 ∧
     (umr_decode_pde_entry 10 min e).llc_noalloc =
       if 3 ≤ min then e / 2 ^ 58 % 2 else 0) := by
  have h31 : (0x1F : Nat) = 2 ^ 5 - 1 := by norm_num
  have hmsk : (0xFFFFFFFFFFC0 : Nat) = (2 ^ 42 - 1) * 2 ^ 6 := by norm_num
  have hfrag : (e >>> 59) &&& 0x1F = e / 2 ^ 59 % 2 ^ 5 := by rw [h31, shr_and_mask]
  have hbase : e &&& 0xFFFFFFFFFFC0 = e % 2 ^ 48 / 2 ^ 6 * 2 ^ 6 := by
    rw [hmsk, and_mask_shift]
  have hvalid : e &&& 1 = e % 2 := Nat.and_one_is_mod e
  have hsys : (e >>> 1) &&& 1 = e / 2 % 2 := by simpa using shr_and_one e 1
  have hcoh := shr_and_one e 2
  have hpte := shr_and_one e 54
  have hfur := shr_and_one e 56
  have hllc := shr_and_one e 58
  refine ⟨⟨?_, ?_, ?_, ?_, ?_, ?_, ?_, ?_⟩, ?_, ?_, ?_, ?_, ?_, ?_, ?_, ?_⟩ <;>
    simp [umr_decode_pde_entry, hfrag, hbase, hvalid, hsys, hcoh, hpte, hfur, hllc]

/-- Claim C2, counterexample: for the unrecognized gfx major 8 the PTE
decoder does not return the all-zero record -- the page base address falls
through to the 4-KiB mask of the raw entry. -/
theorem C2_pte_default_counterexample :
    umr_decode_pte_entry 8 0 0x1000 ≠ ({ } : pte_fields_t) ∧
    (umr_decode_pte_entry 8 0 0x1000).page_base_addr = 0x1000 := by decide

/-- Claim C2 (amended): the decoders are total functions of (major, minor,
raw entry); for an unrecognized gfx major the PDE decoder returns the
all-zero record, while the PTE decoder returns the record that is zero in
every field except `page_base_addr`, which holds the raw entry under the
4-KiB PTE mask. -/
theorem C2_decoders_unrecognized_major (maj min e : Nat)
    (h : maj ≠ 9 ∧ maj ≠ 10 ∧ maj ≠ 11 ∧ maj ≠ 12) :
    umr_decode_pde_entry maj min e = { } ∧
    umr_decode_pte_entry maj min e =
      { page_base_addr := e % 2 ^ 48 / 2 ^ 12 * 2 ^ 12 } := by
  obtain ⟨h9, h10, h11, h12⟩ := h
  have hmsk : (0xFFFFFFFFF000 : Nat) = (2 ^ 36 - 1) * 2 ^ 12 := by norm_num
  have hpba : e &&& 0xFFFFFFFFF000 = e % 2 ^ 48 / 2 ^ 12 * 2 ^ 12 := by
    rw [hmsk, and_mask_shift]
  constructor
  · simp [umr_decode_pde_entry, h9, h10, h11, h12]
  · simp [umr_decode_pte_entry, decode_pte_switch, h9, h10, h11, h12, hpba]

/-- Witness for C2: the amended statement evaluated at gfx major 13. -/
theorem C2_decoders_unrecognized_major_witness :
    umr_decode_pde_entry 13 0 0x1000 = { } ∧
    umr_decode_pte_entry 13 0 0x1000 =
      { page_base_addr := 0x1000 % 2 ^ 48 / 2 ^ 12 * 2 ^ 12 } :=
  C2_decoders_unrecognized_major 13 0 0x1000 (by decide)

/-- Claim C3: on GFX12 the leaf-entry `pte` flag (bit 63) has inverted
polarity: the entry is treated as a directory pointer (64-byte mask) exactly
when bit 63 is clear, whereas GFX9-11 treat it as a directory pointer
exactly when `further` (bit 56) is set; and the translation engine's
PDE-reinterpretation special case for a clear `pte` bit applies only from
GFX major 12 on. -/
theorem C3_gfx12_inverted_pte_polarity :
    (∀ min e, (umr_decode_pte_entry 12 min e).page_base_addr =
      if e.testBit 63 then e % 2 ^ 48 / 2 ^ 12 * 2 ^ 12
      else e % 2 ^ 48 / 2 ^ 6 * 2 ^ 6) ∧
    (∀ maj min e, maj = 9 ∨ maj = 10 ∨ maj = 11 →
      (umr_decode_pte_entry maj min e).page_base_addr =
        if e.testBit 56 then e % 2 ^ 48 / 2 ^ 6 * 2 ^ 6
        else e % 2 ^ 48 / 2 ^ 12 * 2 ^ 12) ∧
    (∀ maj f, maj < 12 →
      vm_pte_is_pde maj f = (decide (f.further ≠ 0) && decide (f.valid ≠ 0))) ∧
    (∀ maj min e, 12 ≤ maj → e.testBit 63 = false →
      (umr_decode_pte_entry maj min e).valid ≠ 0 →
      vm_pte_is_pde maj (umr_decode_pte_entry maj min e) = true) := by
  have hm64 : ∀ x : Nat, x &&& 0xFFFFFFFFFFC0 = x % 2 ^ 48 / 2 ^ 6 * 2 ^ 6 := by
    intro x
    have hmsk : (0xFFFFFFFFFFC0 : Nat) = (2 ^ 42 - 1) * 2 ^ 6 := by norm_num
    rw [hmsk, and_mask_shift]
  have hm4k : ∀ x : Nat, x &&& 0xFFFFFFFFF000 = x % 2 ^ 48 / 2 ^ 12 * 2 ^ 12 := by
    intro x
    have hmsk : (0xFFFFFFFFF000 : Nat) = (2 ^ 36 - 1) * 2 ^ 12 := by norm_num
    rw [hmsk, and_mask_shift]
  have htb : ∀ (x : Nat) (i : Nat), x.testBit i = decide (x / 2 ^ i % 2 = 1) := by
    intro x i; exact Nat.testBit_to_div_mod
  refine ⟨?_, ?_, ?_, ?_⟩
  · intro min e
    by_cases hb : e.testBit 63
    · have h1 : e / 2 ^ 63 % 2 = 1 := by
        have := htb e 63; rw [hb] at this; exact (of_decide_eq_true this.symm)
      have hzm : e >>> 63 % 2 = 1 := by rw [Nat.shiftRight_eq_div_pow]; exact h1
      simp [umr_decode_pte_entry, decode_pte_switch, hb, hzm, hm4k]
    · have h1 : e / 2 ^ 63 % 2 ≠ 1 := by
        have := htb e 63
        intro hc
        rw [hc] at this
        simp [hb] at this
      have hzm : e >>> 63 % 2 = 0 := by rw [Nat.shiftRight_eq_div_pow]; omega
      simp [umr_decode_pte_entry, decode_pte_switch, hb, hzm, hm64]
  · intro maj min e hmaj
    by_cases hb : e.testBit 56
    · have h1 : e / 2 ^ 56 % 2 = 1 := by
        have := htb e 56; rw [hb] at this; exact (of_decide_eq_true this.symm)
      have hzm : e >>> 56 % 2 = 1 := by rw [Nat.shiftRight_eq_div_pow]; exact h1
      rcases hmaj with h | h | h <;> subst h <;>
        simp [umr_decode_pte_entry, decode_pte_switch, hb, hzm, hm64]
    · have h1 : e / 2 ^ 56 % 2 ≠ 1 := by
        have := htb e 56
        intro hc
        rw [hc] at this
        simp [hb] at this
      have hzm : e >>> 56 % 2 = 0 := by rw [Nat.shiftRight_eq_div_pow]; omega
      rcases hmaj with h | h | h <;> subst h <;>
        simp [umr_decode_pte_entry, decode_pte_switch, hb, hzm, hm4k]
  · intro maj f h
    unfold vm_pte_is_pde
    rw [if_neg]
    rintro ⟨h12, -, -⟩
    omega
  · intro maj min e hmaj hbit hval
    have h1 : e / 2 ^ 63 % 2 ≠ 1 := by
      have := htb e 63
      intro hc
      rw [hc] at this
      simp [hbit] at this
    have hzm : e >>> 63 % 2 = 0 := by rw [Nat.shiftRight_eq_div_pow]; omega
    have hpte : (umr_decode_pte_entry maj min e).pte = 0 := by
      by_cases h12 : maj = 12
      · subst h12
        simp [umr_decode_pte_entry, decode_pte_switch, hzm]
      · have h9 : maj ≠ 9 := by omega
        have h10 : maj ≠ 10 := by omega
        have h11 : maj ≠ 11 := by omega
        simp [umr_decode_pte_entry, decode_pte_switch, h9, h10, h11, h12]
    unfold vm_pte_is_pde
    rw [if_pos ⟨hmaj, hpte, hval⟩]

/-- Witness for C3: instantiations of all four conjuncts at concrete
entries. -/
theorem C3_gfx12_inverted_pte_polarity_witness :
    ((umr_decode_pte_entry 12 0 0x1040).page_base_addr =
      if (0x1040 : Nat).testBit 63 then 0x1040 % 2 ^ 48 / 2 ^ 12 * 2 ^ 12
      else 0x1040 % 2 ^ 48 / 2 ^ 6 * 2 ^ 6) ∧
    ((umr_decode_pte_entry 9 0 0x1040).page_base_addr =
      if (0x1040 : Nat).testBit 56 then 0x1040 % 2 ^ 48 / 2 ^ 6 * 2 ^ 6
      else 0x1040 % 2 ^ 48 / 2 ^ 12 * 2 ^ 12) ∧
    vm_pte_is_pde 11 { further := 1, valid := 1 } =
      (decide ((1 : Nat) ≠ 0) && decide ((1 : Nat) ≠ 0)) ∧
    vm_pte_is_pde 12 (umr_decode_pte_entry 12 0 1) = true :=
  ⟨C3_gfx12_inverted_pte_polarity.1 0 0x1040,
   C3_gfx12_inverted_pte_polarity.2.1 9 0 0x1040 (Or.inl rfl),
   C3_gfx12_inverted_pte_polarity.2.2.1 11 { further := 1, valid := 1 } (by omega),
   C3_gfx12_inverted_pte_polarity.2.2.2 12 0 1 (by omega) (by decide) (by decide)⟩

/-- Claim C10: the word-alignment guard of `umr_access_vram` is checked
before anything else -- a misaligned address, size or destination pointer
returns -1 with no process copy, no linear access and no translation. -/
theorem C10_entry_alignment_guard (maj : Nat) (familyGTVi use_xgmi : Bool)
    (linearResult viResult aiResult : Int) (xgmiOps : List MemOp) (xgmiAddr : Nat)
    (vmid address size dataAlign : Nat) (write_en : Bool)
    (h : address % 4 ≠ 0 ∨ size % 4 ≠ 0 ∨ dataAlign % 4 ≠ 0) :
    umr_access_vram maj familyGTVi use_xgmi linearResult viResult aiResult xgmiOps xgmiAddr
      vmid address size dataAlign write_en = (-1, []) := by
  unfold umr_access_vram
  rcases h with h | h | h
  · rw [if_pos (Or.inl h)]
  · rw [if_pos (Or.inr h)]
  · by_cases h2 : address % 4 ≠ 0 ∨ size % 4 ≠ 0
    · rw [if_pos h2]
    · rw [if_neg h2, if_pos h]

/-- Witness for C10: a 2-byte-aligned address is rejected with no actions. -/
theorem C10_entry_alignment_guard_witness :
    umr_access_vram 9 false false 0 0 0 [] 0 0 2 4 0 false = (-1, []) :=
  C10_entry_alignment_guard 9 false false 0 0 0 [] 0 0 2 4 0 false (by decide)

/-- The prologue adjustments of `umr_access_vram_ai` only touch the block
size and the root table base; every field consulted by the SAM passthrough
and the span check is preserved. -/
theorem vm_prologue_preserves (cfg : VmConfig) :
    (vm_prologue cfg).page_table_start_addr = cfg.page_table_start_addr ∧
    (vm_prologue cfg).page_table_end_addr = cfg.page_table_end_addr ∧
    (vm_prologue cfg).sam = cfg.sam ∧
    (vm_prologue cfg).user_queue_active = cfg.user_queue_active ∧
    (vm_prologue cfg).system_aperture_low = cfg.system_aperture_low ∧
    (vm_prologue cfg).system_aperture_high = cfg.system_aperture_high ∧
    (vm_prologue cfg).fb_bottom = cfg.fb_bottom ∧
    (vm_prologue cfg).fb_top = cfg.fb_top := by
  simp only [vm_prologue]
  split <;> split <;> simp

/-- `vm_sam_resolve` does not read the fields the prologue rewrites. -/
theorem vm_sam_resolve_prologue (cfg : VmConfig) (env : VmEnv) (vmid address size : Nat)
    (write_en dstPresent : Bool) :
    vm_sam_resolve (vm_prologue cfg) env vmid address size write_en dstPresent =
      vm_sam_resolve cfg env vmid address size write_en dstPresent := by
  obtain ⟨-, -, h3, h4, h5, h6, h7, h8⟩ := vm_prologue_preserves cfg
  unfold vm_sam_resolve
  rw [h3, h4, h5, h6, h7, h8]

set_option maxRecDepth 6000 in
/-- Claim C4, counterexample: the C span check admits the page offset above
`page_table_end_addr`, so an address just past the claimed inclusive span
`[start, end]` is translated normally -- the engine performs a PTE fetch and
the user access and returns 0, rather than failing with -1 and no reads. -/
theorem C4_out_of_claimed_span_counterexample :
    vm_cfg_flat.page_table_end_addr < 0x1FF001 ∧
    umr_access_vram_ai vm_cfg_flat vm_env_const 1 0x1FF001 4 false true 1 1 =
      ⟨0, [⟨.sram, 0x10FF8, 8, false⟩, ⟨.sram, 0x3001, 4, false⟩]⟩ :=
  ⟨by decide, rfl⟩

/-- Claim C4 (amended): for a request the VMID-0 SAM passthrough does not
resolve, an address outside `[start, end + 0xFFF]` (the end register names
the base of the last 4-KiB page) fails hard: -1 without a page walk and
without a single backend access. -/
theorem C4_span_check_fails_hard (cfg : VmConfig) (env : VmEnv) (vmid address size : Nat)
    (write_en dstPresent : Bool) (fuelP fuelF : Nat)
    (hsam : vm_sam_resolve cfg env (vmid &&& 0xFF) address size write_en dstPresent = none)
    (hout : address < cfg.page_table_start_addr ∨
      cfg.page_table_end_addr + 0xFFF < address) :
    umr_access_vram_ai cfg env vmid address size write_en dstPresent fuelP fuelF =
      ⟨-1, []⟩ := by
  obtain ⟨h1, h2, -⟩ := vm_prologue_preserves cfg
  simp only [umr_access_vram_ai]
  rw [vm_sam_resolve_prologue, hsam, h1, h2]
  rw [if_pos hout]

/-- Witness for C4: a far out-of-span address on the concrete flat config. -/
theorem C4_span_check_fails_hard_witness :
    umr_access_vram_ai vm_cfg_flat vm_env_const 1 0x200001 4 false true 1 1 = ⟨-1, []⟩ :=
  C4_span_check_fails_hard vm_cfg_flat vm_env_const 1 0x200001 4 false true 1 1
    (by decide) (by decide)

/-- On any value below `2 ^ fuel` the bounded bit-counting loop computes
`log2 + 1` (and 0 on 0). -/
theorem bits_loop_go_eq (fuel : Nat) : ∀ n, n < 2 ^ fuel →
    bits_loop_go fuel n = if n = 0 then 0 else Nat.log2 n + 1 := by
  induction fuel with
  | zero =>
    intro n h
    rw [pow_zero] at h
    have h0 : n = 0 := by omega
    subst h0
    simp [bits_loop_go]
  | succ f ih =>
    intro n h
    by_cases h0 : n = 0
    · simp [h0, bits_loop_go]
    · rw [show bits_loop_go (f + 1) n = if n = 0 then 0 else bits_loop_go f (n / 2) + 1 from rfl]
      rw [if_neg h0, if_neg h0]
      have hd : n / 2 < 2 ^ f := by
        rw [Nat.div_lt_iff_lt_mul (by norm_num), ← pow_succ]
        exact h
      rw [ih (n / 2) hd]
      by_cases h1 : n / 2 = 0
      · have hn1 : n = 1 := by omega
        subst hn1
        simp [Nat.log2]
      · rw [if_neg h1]
        have h2 : 2 ≤ n := by omega
        conv_rhs => rw [Nat.log2]
        rw [if_pos h2]

/-- The bit-counting loop of `log2_vm_size` computes `log2 + 1` on positive
64-bit inputs. -/
theorem bits_loop_eq (n : Nat) (h : n < 2 ^ 64) :
    bits_loop n = if n = 0 then 0 else Nat.log2 n + 1 :=
  bits_loop_go_eq 64 n h

/-- Claim C7: `total_vm_bits` is the ceiling of log2 of the VM span size
(the end address being inclusive of its 4-KiB page); with depth at least 1
the top page-directory level has index width
`total_vm_bits - 9 (depth - 1) - (block_size + 21)` while every lower level
extracts a fixed 9-bit index (< 512) from the address. -/
theorem C7_pdb_index_widths :
    (∀ s e, s ≤ e → e < 2 ^ 64 → e - s ≤ 2 ^ 64 - 1 - 4096 →
      e - s + 4096 ≤ 2 ^ log2_vm_size s e ∧
      2 ^ (log2_vm_size s e - 1) < e - s + 4096) ∧
    (∀ total depth bs, 1 ≤ depth → total ≤ 64 → 9 * (depth - 1) + (bs + 21) ≤ total →
      top_pdb_bits_val total depth bs =
        (total : Int) - 9 * ((depth : Int) - 1) - ((bs : Int) + 21)) ∧
    (∀ total (top : Int) depth current addr, current < depth →
      vm_pde_index total top depth current addr =
        addr / 2 ^ ((total : Int) - top - 9 * ((depth : Int) - (current : Int))).toNat
          % 2 ^ 9 ∧
      vm_pde_index total top depth current addr < 512) ∧
    (∀ total depth bs addr, 1 ≤ depth → total ≤ 64 →
      9 * (depth - 1) + (bs + 21) ≤ total → addr < 2 ^ total →
      vm_pde_index total (top_pdb_bits_val total depth bs) depth depth addr =
        addr / 2 ^ (9 * (depth - 1) + (bs + 21)) ∧
      vm_pde_index total (top_pdb_bits_val total depth bs) depth depth addr <
        2 ^ (total - (9 * (depth - 1) + (bs + 21)))) := by
  have e64 : (2 : Nat) ^ 64 = 18446744073709551616 := by norm_num
  have e32 : (2 : Nat) ^ 32 = 4294967296 := by norm_num
  have e31 : (2 : Nat) ^ 31 = 2147483648 := by norm_num
  have hp2 : ∀ total depth bs, 1 ≤ depth → total ≤ 64 →
      9 * (depth - 1) + (bs + 21) ≤ total →
      top_pdb_bits_val total depth bs =
        (total : Int) - 9 * ((depth : Int) - 1) - ((bs : Int) + 21) := by
    intro total depth bs h1 h2 h3
    have hd0 : ¬ depth = 0 := by omega
    have hA : ((total : Int) - 9 * ((depth : Int) - 1)) = ((total - 9 * (depth - 1) : Nat) : Int) := by
      omega
    have hU : int_to_u64 ((total : Int) - 9 * ((depth : Int) - 1)) = total - 9 * (depth - 1) := by
      rw [hA]
      unfold int_to_u64
      rw [Int.emod_eq_of_lt (by positivity) (by push_cast; omega)]
      exact Int.toNat_natCast _
    have hS : sub64 (total - 9 * (depth - 1)) (bs + 21) = total - 9 * (depth - 1) - (bs + 21) := by
      unfold sub64
      rw [e64]
      omega
    have hfin : top_pdb_bits_val total depth bs =
        to_int32 (total - 9 * (depth - 1) - (bs + 21)) := by
      simp only [top_pdb_bits_val, if_neg hd0]
      rw [hU, hS]
    rw [hfin]
    unfold to_int32
    have hsm : (total - 9 * (depth - 1) - (bs + 21)) % 2 ^ 32 =
        total - 9 * (depth - 1) - (bs + 21) := by
      rw [e32]
      omega
    rw [hsm, if_pos (by rw [e31]; omega)]
    omega
  refine ⟨?_, hp2, ?_, ?_⟩
  · intro s e hse he hbound
    unfold log2_vm_size
    have hs : s < 2 ^ 64 := lt_of_le_of_lt hse he
    have hsub : sub64 e s = e - s := by
      unfold sub64
      rw [Nat.mod_eq_of_lt he, Nat.mod_eq_of_lt hs]
      rw [e64] at he hs ⊢
      omega
    rw [hsub, if_neg (by omega)]
    rw [if_neg (by omega)]
    rw [bits_loop_eq _ (by omega), if_neg (by omega)]
    constructor
    · have h := Nat.lt_log2_self (n := e - s + 4096 - 1)
      omega
    · have h := Nat.log2_self_le (n := e - s + 4096 - 1) (by omega)
      simp only [Nat.add_sub_cancel]
      omega
  · intro total top depth current addr hlt
    unfold vm_pde_index
    rw [if_pos (by omega)]
    have h511 : (511 : Nat) = 2 ^ 9 - 1 := by norm_num
    constructor
    · rw [h511, shr_and_mask]
    · rw [h511, shr_and_mask]
      exact lt_of_lt_of_le (Nat.mod_lt _ (by norm_num)) (by norm_num)
  · intro total depth bs addr h1 h2 h3 hlt
    have htop := hp2 total depth bs h1 h2 h3
    unfold vm_pde_index
    rw [if_neg (by omega)]
    rw [htop]
    have hsh : ((total : Int) - ((total : Int) - 9 * ((depth : Int) - 1) - ((bs : Int) + 21))
        - 9 * ((depth : Int) - (depth : Int))).toNat = 9 * (depth - 1) + (bs + 21) := by
      omega
    rw [hsh, Nat.shiftRight_eq_div_pow]
    refine ⟨rfl, ?_⟩
    have hA : 9 * (depth - 1) + (bs + 21) ≤ total := h3
    rw [Nat.div_lt_iff_lt_mul (by positivity)]
    calc addr < 2 ^ total := hlt
    _ = 2 ^ (total - (9 * (depth - 1) + (bs + 21))) * 2 ^ (9 * (depth - 1) + (bs + 21)) := by
        rw [← pow_add]
        congr 1
        omega

/-- Witness for C7: all four conjuncts at a concrete two-level layout
(total 30 bits, depth 2, block size 0). -/
theorem C7_pdb_index_widths_witness :
    (0x1FF000 - 0 + 4096 ≤ 2 ^ log2_vm_size 0 0x1FF000 ∧
     2 ^ (log2_vm_size 0 0x1FF000 - 1) < 0x1FF000 - 0 + 4096) ∧
    top_pdb_bits_val 30 2 0 = (30 : Int) - 9 * ((2 : Int) - 1) - ((0 : Int) + 21) ∧
    (vm_pde_index 30 0 2 1 0x12345678 =
       0x12345678 / 2 ^ ((30 : Int) - 0 - 9 * ((2 : Int) - (1 : Int))).toNat % 2 ^ 9 ∧
     vm_pde_index 30 0 2 1 0x12345678 < 512) ∧
    (vm_pde_index 30 (top_pdb_bits_val 30 2 0) 2 2 0x1234 =
       0x1234 / 2 ^ (9 * (2 - 1) + (0 + 21)) ∧
     vm_pde_index 30 (top_pdb_bits_val 30 2 0) 2 2 0x1234 <
       2 ^ (30 - (9 * (2 - 1) + (0 + 21)))) :=
  ⟨C7_pdb_index_widths.1 0 0x1FF000 (by norm_num) (by norm_num) (by norm_num),
   C7_pdb_index_widths.2.1 30 2 0 (by norm_num) (by norm_num) (by norm_num),
   C7_pdb_index_widths.2.2.1 30 0 2 1 0x12345678 (by norm_num),
   C7_pdb_index_widths.2.2.2 30 2 0 0x1234 (by norm_num) (by norm_num) (by norm_num)
     (by norm_num)⟩

set_option maxRecDepth 8192 in
/-- The PM4 packet loop stops immediately -- no node, no tracker change, no
read -- when the remaining word count is below the first header\x27s declared
length as the C compares it (in 32-bit arithmetic). -/
theorem pm4_loop_stop (fuel : Nat) (env : Pm4Env) (opts : Pm4Opts) (vmid ib_addr : Nat)
    (ws : List Nat) (nwords : Nat) (uvd : UvdState) (regs : List umr_shader_reg_pair)
    (h : nwords < (1 + pm4_nwords_of_hdr (ws.getD 0 0 % 2 ^ 32)) % 2 ^ 32) :
    pm4_loop fuel env opts vmid ib_addr ws nwords uvd regs = ([], regs, []) := by
  cases fuel with
  | zero => rw [pm4_loop]
  | succ f =>
    rw [pm4_loop]
    simp only [if_pos h]

/-- Wrapping 32-bit subtraction is plain subtraction when it cannot wrap. -/
theorem sub32_of_le (a b : Nat) (hb : b ≤ a) (ha : a < 2 ^ 32) : sub32 a b = a - b := by
  unfold sub32
  have e32 : (2 : Nat) ^ 32 = 4294967296 := by norm_num
  rw [e32] at ha ⊢
  omega

/-- What `pm4_complete` guarantees about the first packet of a non-empty
buffer. -/
theorem pm4_complete_cons (ws : List Nat) (h : ws ≠ [])
    (hc : pm4_complete ws = true) :
    (1 + pm4_nwords_of_hdr (ws.getD 0 0 % 2 ^ 32)) % 2 ^ 32 =
        1 + pm4_nwords_of_hdr (ws.getD 0 0 % 2 ^ 32) ∧
    1 + pm4_nwords_of_hdr (ws.getD 0 0 % 2 ^ 32) ≤ ws.length ∧
    pm4_complete (ws.drop (1 + pm4_nwords_of_hdr (ws.getD 0 0 % 2 ^ 32))) = true := by
  rw [pm4_complete] at hc
  rw [dif_neg h] at hc
  simp only [Bool.and_eq_true, decide_eq_true_eq] at hc
  exact ⟨hc.1.1, hc.1.2, hc.2⟩

set_option maxRecDepth 8192 in
set_option maxHeartbeats 2000000 in
/-- Appending a trailing partial packet to a buffer of complete packets does
not change what the PM4 packet loop produces. -/
theorem pm4_loop_append (env : Pm4Env) (opts : Pm4Opts) (vmid : Nat) (p : List Nat)
    (hp : p ≠ [])
    (htrunc : p.length < (1 + pm4_nwords_of_hdr (p.getD 0 0 % 2 ^ 32)) % 2 ^ 32) :
    ∀ fuel ws ib_addr uvd regs, pm4_complete ws = true →
      ws.length + p.length < 2 ^ 32 → ws.length < fuel →
      pm4_loop fuel env opts vmid ib_addr (ws ++ p) (ws.length + p.length) uvd regs =
        pm4_loop fuel env opts vmid ib_addr ws ws.length uvd regs := by
  intro fuel
  induction fuel with
  | zero =>
    intro ws ib uvd regs _ _ hf
    exact absurd hf (by omega)
  | succ f ih =>
    intro ws ib uvd regs hc hlen hf
    by_cases hne : ws = []
    · subst hne
      simp only [List.nil_append, List.length_nil, Nat.zero_add]
      rw [pm4_loop_stop _ _ _ _ _ _ _ _ _ htrunc,
        pm4_loop_stop _ _ _ _ _ _ _ _ _ (by decide)]
    · obtain ⟨hnw, hle, hrest⟩ := pm4_complete_cons ws hne hc
      have hlt0 : 0 < ws.length := List.length_pos.mpr hne
      have h1le : 1 ≤ ws.length := hlt0
      have hnle : pm4_nwords_of_hdr (ws.getD 0 0 % 2 ^ 32) ≤ (ws.drop 1).length := by
        rw [List.length_drop]
        omega
      have hstopL : ¬ (ws.length + p.length <
          1 + pm4_nwords_of_hdr (ws.getD 0 0 % 2 ^ 32)) := by omega
      have hstopR : ¬ (ws.length <
          1 + pm4_nwords_of_hdr (ws.getD 0 0 % 2 ^ 32)) := by omega
      conv_lhs => rw [pm4_loop]
      conv_rhs => rw [pm4_loop]
      rw [List.getD_append ws p 0 0 hlt0]
      rw [List.drop_append_of_le_length h1le]
      rw [List.take_append_of_le_length hnle]
      rw [hnw]
      rw [if_neg hstopL, if_neg hstopR]
      dsimp only []
      rw [sub32_of_le (ws.length + p.length)
          (1 + pm4_nwords_of_hdr (ws.getD 0 0 % 2 ^ 32)) (by omega) hlen,
        sub32_of_le ws.length (1 + pm4_nwords_of_hdr (ws.getD 0 0 % 2 ^ 32)) hle (by omega)]
      by_cases h0 : ws.length - (1 + pm4_nwords_of_hdr (ws.getD 0 0 % 2 ^ 32)) = 0
      · have hpe : ws.length + p.length - (1 + pm4_nwords_of_hdr (ws.getD 0 0 % 2 ^ 32)) =
            p.length := by omega
        have hpne : ¬ p.length = 0 := fun hl => hp (List.length_eq_zero.mp hl)
        rw [hpe, if_neg hpne, if_pos h0]
        rw [List.drop_left' (show ws.length =
          1 + pm4_nwords_of_hdr (ws.getD 0 0 % 2 ^ 32) from by omega)]
        rw [pm4_loop_stop _ _ _ _ _ _ _ _ _ htrunc]
        simp
      · have h0L : ¬ (ws.length + p.length -
            (1 + pm4_nwords_of_hdr (ws.getD 0 0 % 2 ^ 32)) = 0) := by omega
        rw [if_neg h0L, if_neg h0]
        rw [List.drop_append_of_le_length hle]
        have hdl : ws.length + p.length - (1 + pm4_nwords_of_hdr (ws.getD 0 0 % 2 ^ 32)) =
            (ws.drop (1 + pm4_nwords_of_hdr (ws.getD 0 0 % 2 ^ 32))).length + p.length := by
          rw [List.length_drop]
          omega
        have hdr2 : ws.length - (1 + pm4_nwords_of_hdr (ws.getD 0 0 % 2 ^ 32)) =
            (ws.drop (1 + pm4_nwords_of_hdr (ws.getD 0 0 % 2 ^ 32))).length := by
          rw [List.length_drop]
        rw [hdl, hdr2]
        rw [ih (ws.drop (1 + pm4_nwords_of_hdr (ws.getD 0 0 % 2 ^ 32))) _ _ _ hrest
          (by rw [List.length_drop]; omega) (by rw [List.length_drop]; omega)]

set_option maxRecDepth 8192 in
set_option maxHeartbeats 2000000 in
/-- A trailing partial HSA packet (fewer than 32 leftover halfwords in the
counter) does not change what the HSA packet loop produces. -/
theorem hsa_loop_trunc (env : HsaEnv) (r : Nat) (hr0 : 0 < r) (hr : r < 32) :
    ∀ m w16, m % 32 = 0 →
      hsa_loop env w16 (m + r) = hsa_loop env w16 m := by
  intro m
  induction m using Nat.strong_induction_on with
  | _ m ih =>
    intro w16 hm
    by_cases h0 : m = 0
    · subst h0
      conv_lhs => rw [hsa_loop]
      conv_rhs => rw [hsa_loop]
      rw [dif_pos (show 0 + r < 32 from by omega), dif_pos (show (0 : Nat) < 32 from by omega)]
    · have h32 : 32 ≤ m := by omega
      conv_lhs => rw [hsa_loop]
      conv_rhs => rw [hsa_loop]
      rw [dif_neg (show ¬ (m + r < 32) from by omega), dif_neg (show ¬ (m < 32) from by omega)]
      dsimp only []
      rw [show m + r - 32 = m - 32 + r from by omega]
      by_cases hz : m - 32 = 0
      · rw [dif_neg (show ¬ (m - 32 + r = 0) from by omega), dif_pos hz]
        rw [hz, Nat.zero_add]
        conv_lhs => rw [hsa_loop]
        rw [dif_pos (show r < 32 from hr)]
        simp
      · rw [dif_neg (show ¬ (m - 32 + r = 0) from by omega), dif_neg hz]
        rw [ih (m - 32) (by omega) (w16.drop 32) (by omega)]

/-- Marking a tracker entry used preserves every entry\x27s (name, value)
view. -/
theorem mark_used_map_pv (rs : List umr_shader_reg_pair) (pat : String) :
    (mark_used_regpair rs pat).map regpair_pv = rs.map regpair_pv := by
  induction rs with
  | nil => rfl
  | cons p ps ih =>
    unfold mark_used_regpair
    by_cases h : hasSub p.regname pat
    · simp [h, regpair_pv]
    · simp [h, ih]

/-- The partial-match lookup\x27s (name, value) view is a function of the
tracker\x27s (name, value) view. -/
theorem find_partial_pv (rs : List umr_shader_reg_pair) (pat : String) :
    (umr_shader_find_partial_regpair rs pat).map regpair_pv =
      (rs.map regpair_pv).find? (fun q => hasSub q.1 pat) := by
  unfold umr_shader_find_partial_regpair
  rw [List.find?_map]
  rfl

/-- `add_shader` appends exactly one registration, carrying the given type
and address. -/
theorem add_shader_map_ta (opts : Pm4Opts) (env : Pm4Env) (sh : List umr_shaders_pgm)
    (vmid addr : Nat) (ty : ShaderType) (rp : List umr_shader_reg_pair) :
    (add_shader opts env sh vmid addr ty rp).map (fun s => (s.type, s.addr)) =
      sh.map (fun s => (s.type, s.addr)) ++ [(ty, addr)] := by
  unfold add_shader
  rw [List.map_append]
  rfl

/-- The shader-discovery fold of `process_shaders`, characterized over any
table slice: it registers exactly the `process_shaders_spec` list (computed
against any tracker with the same (name, value) view) and preserves that
view. -/
theorem process_shaders_entries (opts : Pm4Opts) (env : Pm4Env) (vmid : Nat) :
    ∀ (ts : List (String × String × ShaderType)) (sh : List umr_shaders_pgm)
      (regs0 regs : List umr_shader_reg_pair),
      regs.map regpair_pv = regs0.map regpair_pv →
      ((ts.foldl (process_shaders_entry opts env vmid) (sh, regs)).1.map
          (fun s => (s.type, s.addr)) =
        sh.map (fun s => (s.type, s.addr)) ++
          (ts.filter (fun t => shader_enabled opts t.2.2)).filterMap
            (fun t =>
              match umr_shader_find_partial_regpair regs0 t.1,
                  umr_shader_find_partial_regpair regs0 t.2.1 with
              | some hi, some lo =>
                if hi.value ≠ 0 ∨ lo.value ≠ 0 then
                  some (t.2.2, shader_pair_addr hi.value lo.value)
                else none
              | _, _ => none)) ∧
      ((ts.foldl (process_shaders_entry opts env vmid) (sh, regs)).2.map regpair_pv =
        regs0.map regpair_pv) := by
  intro ts
  induction ts with
  | nil =>
    intro sh regs0 regs h
    exact ⟨by simp, by simpa using h⟩
  | cons t ts ih =>
    intro sh regs0 regs h
    rw [List.foldl_cons]
    have hh1 : (umr_shader_find_partial_regpair regs t.1).map regpair_pv =
        (umr_shader_find_partial_regpair regs0 t.1).map regpair_pv := by
      rw [find_partial_pv, find_partial_pv, h]
    have hh2 : (umr_shader_find_partial_regpair regs t.2.1).map regpair_pv =
        (umr_shader_find_partial_regpair regs0 t.2.1).map regpair_pv := by
      rw [find_partial_pv, find_partial_pv, h]
    by_cases he : shader_enabled opts t.2.2 = false
    · have hstep : process_shaders_entry opts env vmid (sh, regs) t = (sh, regs) := by
        unfold process_shaders_entry
        rw [if_pos he]
      rw [hstep, List.filter_cons_of_neg (by simp [he])]
      exact ih sh regs0 regs h
    · have he' : shader_enabled opts t.2.2 = true := by
        cases hb : shader_enabled opts t.2.2
        · exact absurd hb he
        · rfl
      rw [List.filter_cons_of_pos (by simp [he'])]
      cases hf1 : umr_shader_find_partial_regpair regs t.1 with
      | none =>
        have hf10 : umr_shader_find_partial_regpair regs0 t.1 = none := by
          rw [hf1] at hh1
          exact Option.map_eq_none'.mp hh1.symm
        have hstep : process_shaders_entry opts env vmid (sh, regs) t = (sh, regs) := by
          simp [process_shaders_entry, he', hf1]
        rw [hstep, List.filterMap_cons]
        simp only [hf10]
        exact ih sh regs0 regs h
      | some hi =>
        cases hf10 : umr_shader_find_partial_regpair regs0 t.1 with
        | none =>
          rw [hf1, hf10] at hh1
          exact absurd hh1 (by simp)
        | some hi0 =>
          have hv1 : hi.value = hi0.value := by
            rw [hf1, hf10] at hh1
            simpa [regpair_pv] using congrArg Prod.snd (Option.some.inj hh1)
          cases hf2 : umr_shader_find_partial_regpair regs t.2.1 with
          | none =>
            have hf20 : umr_shader_find_partial_regpair regs0 t.2.1 = none := by
              rw [hf2] at hh2
              exact Option.map_eq_none'.mp hh2.symm
            have hstep : process_shaders_entry opts env vmid (sh, regs) t = (sh, regs) := by
              simp [process_shaders_entry, he', hf1, hf2]
            rw [hstep, List.filterMap_cons]
            simp only [hf10, hf20]
            exact ih sh regs0 regs h
          | some lo =>
            cases hf20 : umr_shader_find_partial_regpair regs0 t.2.1 with
            | none =>
              rw [hf2, hf20] at hh2
              exact absurd hh2 (by simp)
            | some lo0 =>
              have hv2 : lo.value = lo0.value := by
                rw [hf2, hf20] at hh2
                simpa [regpair_pv] using congrArg Prod.snd (Option.some.inj hh2)
              have hpairs : (mark_used_regpair (mark_used_regpair regs t.1) t.2.1).map
                  regpair_pv = regs0.map regpair_pv := by
                rw [mark_used_map_pv, mark_used_map_pv, h]
              by_cases hv : hi.value ≠ 0 ∨ lo.value ≠ 0
              · have hstep : process_shaders_entry opts env vmid (sh, regs) t =
                    (add_shader opts env sh vmid (shader_pair_addr hi.value lo.value) t.2.2
                      (mark_used_regpair (mark_used_regpair regs t.1) t.2.1),
                     mark_used_regpair (mark_used_regpair regs t.1) t.2.1) := by
                  simp [process_shaders_entry, he', hf1, hf2, if_pos hv]
                rw [hstep, List.filterMap_cons]
                simp only [hf10, hf20]
                rw [if_pos (by rw [← hv1, ← hv2]; exact hv)]
                obtain ⟨ih1, ih2⟩ := ih
                  (add_shader opts env sh vmid (shader_pair_addr hi.value lo.value) t.2.2
                    (mark_used_regpair (mark_used_regpair regs t.1) t.2.1))
                  regs0 (mark_used_regpair (mark_used_regpair regs t.1) t.2.1) hpairs
                refine ⟨?_, ih2⟩
                rw [ih1, add_shader_map_ta, hv1, hv2]
                simp
              · have hstep : process_shaders_entry opts env vmid (sh, regs) t = (sh, regs) := by
                  simp only [process_shaders_entry, he', hf1, hf2]
                  rw [if_neg hv]
                  split <;> rfl
                rw [hstep, List.filterMap_cons]
                simp only [hf10, hf20]
                rw [if_neg (by rw [← hv1, ← hv2]; exact hv)]
                exact ih sh regs0 regs h

/-- On a positive word count `umr_pm4_decode_stream` is its packet loop with
a fresh UVD accumulator. -/
theorem pm4_decode_unfold_pos (fuel : Nat) (env : Pm4Env) (opts : Pm4Opts)
    (vmid from_addr : Nat) (ws : List Nat) (nwords : Nat)
    (regs : List umr_shader_reg_pair) (h : nwords ≠ 0) :
    umr_pm4_decode_stream fuel env opts vmid from_addr ws nwords regs =
      pm4_loop fuel env opts vmid from_addr ws nwords {} regs := by
  rw [umr_pm4_decode_stream]
  simp only [if_neg h]

/-- On a positive halfword count `umr_hsa_decode_stream` is its packet loop
over the 16-bit view of the buffer. -/
theorem hsa_decode_unfold_pos (env : HsaEnv) (ws : List Nat) (nwords : Nat)
    (h : nwords * 2 % 2 ^ 32 ≠ 0) :
    umr_hsa_decode_stream env ws nwords =
      hsa_loop env (ws.flatMap (fun w => [w % 2 ^ 16, w / 2 ^ 16 % 2 ^ 16]))
        (nwords * 2 % 2 ^ 32) := by
  unfold umr_hsa_decode_stream
  rw [if_neg h]

set_option maxRecDepth 8192 in
/-- On the wrapping type-2 header the packet loop consumes nothing and emits
one node per unit of fuel: the C loop, which has no fuel, never stops. -/
theorem pm4_wrap_livelock (fuel : Nat) :
    (pm4_loop fuel pm4_env_triv {} 0 0 [0xBFFF0000] 1 {} []).1.length = fuel := by
  induction fuel with
  | zero =>
    rw [pm4_loop]
    rfl
  | succ f ih =>
    conv_lhs => rw [pm4_loop]
    simp +decide [pm4_nwords_of_hdr, sub32, pm4_fetch,
      (by decide : (49152 : Nat) &&& 16383 = 0), ih]

set_option maxRecDepth 8192 in
/-- Claim C5, counterexample: the type-2 header 0xBFFF0000 declares a masked
word count of 0, which the decoder decrements in 32-bit arithmetic to
0xFFFFFFFF; the declared packet length (header included) then exceeds the
one remaining word, yet decoding does not stop at the last complete packet
with no trailing node: the stream pointer advances by 0 words each
iteration, so the fuel-indexed embedding returns as many nodes as it is
given fuel (3 nodes at fuel 3, 4 at fuel 4, from a one-word buffer) and the
C loop never terminates. -/
theorem C5_type2_wrap_counterexample :
    pm4_nwords_of_hdr 0xBFFF0000 = 0xFFFFFFFF ∧
    (umr_pm4_decode_stream 3 pm4_env_triv {} 0 0 [0xBFFF0000] 1 []).1.length = 3 ∧
    (umr_pm4_decode_stream 4 pm4_env_triv {} 0 0 [0xBFFF0000] 1 []).1.length = 4 := by
  refine ⟨by decide, ?_, ?_⟩ <;>
    rw [pm4_decode_unfold_pos _ _ _ _ _ _ _ _ (by decide), pm4_wrap_livelock]

set_option maxRecDepth 8192 in
/-- Claim C5 (amended): when every complete packet\x27s declared advance is
free of 32-bit wrap (`pm4_complete`), a trailing partial packet -- fewer
remaining words than the last header\x27s declared length as the code compares
it -- is dropped without error: PM4 decoding of the extended buffer returns
exactly the nodes of the complete prefix (the empty stream when no complete
packet exists), and HSA decoding with 32k + r halfwords (0 < r < 32)
returns exactly the k complete packets. -/
theorem C5_truncation_drops_partial_packet :
    (∀ fuel env opts vmid ib_addr ws p regs, pm4_complete ws = true →
      ws.length + p.length < 2 ^ 32 → ws.length < fuel → p ≠ [] →
      p.length < (1 + pm4_nwords_of_hdr (p.getD 0 0 % 2 ^ 32)) % 2 ^ 32 →
      umr_pm4_decode_stream fuel env opts vmid ib_addr (ws ++ p) (ws.length + p.length) regs =
        if ws.isEmpty then ([], regs, [])
        else umr_pm4_decode_stream fuel env opts vmid ib_addr ws ws.length regs) ∧
    (∀ env ws nwords k r, 0 < r → r < 32 →
      nwords * 2 % 2 ^ 32 = 32 * k + r →
      umr_hsa_decode_stream env ws nwords =
        hsa_loop env (ws.flatMap (fun w => [w % 2 ^ 16, w / 2 ^ 16 % 2 ^ 16])) (32 * k)) := by
  constructor
  · intro fuel env opts vmid ib ws p regs hc hlen hf hp htrunc
    have hpl : p.length ≠ 0 := fun hl => hp (List.length_eq_zero.mp hl)
    rw [pm4_decode_unfold_pos _ _ _ _ _ _ _ _ (by omega)]
    rw [pm4_loop_append env opts vmid p hp htrunc fuel ws ib {} regs hc hlen hf]
    by_cases hne : ws = []
    · subst hne
      rw [pm4_loop_stop _ _ _ _ _ _ _ _ _ (by decide)]
      rfl
    · rw [if_neg (by simp [hne])]
      rw [pm4_decode_unfold_pos _ _ _ _ _ _ _ _ (fun hl => hne (List.length_eq_zero.mp hl))]
  · intro env ws nwords k r hr0 hr hsplit
    rw [hsa_decode_unfold_pos env ws nwords (by omega)]
    rw [hsplit]
    exact hsa_loop_trunc env r hr0 hr (32 * k) _ (by omega)

/-- Claim C6: an `INDIRECT_BUFFER` reference whose declared size exceeds
8 MiB is skipped -- no child stream, no VM read.  The declared size is the
20-bit length field times 4, so it is bounded by 0x3FFFFC and can never
exceed the 8-MiB guard: the claim holds with the guard unreachable (its
hypothesis is never true on any decodable packet). -/
theorem C6_ib_size_guard (fuel : Nat) (env : Pm4Env) (opts : Pm4Opts)
    (vmid ib_addr : Nat) (ps : Pm4Meta) (regs : List umr_shader_reg_pair)
    (_hop : ps.opcode = 0x3F ∨ ps.opcode = 0x33) :
    (pm4_fetch ps 2 &&& 0xFFFFF) * 4 ≤ 1024 * 1024 * 8 ∧
    (1024 * 1024 * 8 < (pm4_fetch ps 2 &&& 0xFFFFF) * 4 →
      (parse_pm4 fuel env opts vmid ib_addr ps regs).2.1 = none ∧
      (parse_pm4 fuel env opts vmid ib_addr ps regs).2.2.2 = []) := by
  have hb : (pm4_fetch ps 2 &&& 0xFFFFF) ≤ 0xFFFFF := Nat.and_le_right
  constructor
  · omega
  · intro hlt
    exact absurd hlt (by omega)

/-- Witness for C6 at a concrete `INDIRECT_BUFFER` packet. -/
theorem C6_ib_size_guard_witness :
    (pm4_fetch { opcode := 0x3F } 2 &&& 0xFFFFF) * 4 ≤ 1024 * 1024 * 8 ∧
    (1024 * 1024 * 8 < (pm4_fetch { opcode := 0x3F } 2 &&& 0xFFFFF) * 4 →
      (parse_pm4 0 pm4_env_triv {} 0 0 { opcode := 0x3F } []).2.1 = none ∧
      (parse_pm4 0 pm4_env_triv {} 0 0 { opcode := 0x3F } []).2.2.2 = []) :=
  C6_ib_size_guard 0 pm4_env_triv {} 0 0 { opcode := 0x3F } [] (Or.inl rfl)

/-- Claim C1, counterexample: with `COMPUTE_PGM_HI = 0` and
`COMPUTE_PGM_LO = 0x1000` the tracker\x27s hi half is zero, yet the C
condition `hi->value || lo->value` registers one compute shader (at
`0 << 40 | 0x1000 << 8 = 0x100000`): registration happens when EITHER half
is non-zero, not exactly when both are. -/
theorem C1_counterexample_zero_hi_registers :
    (umr_shader_find_partial_regpair c1_regs "COMPUTE_PGM_HI").map (fun p => p.value) =
      some 0 ∧
    (process_shaders {} pm4_env_triv 7 [] c1_regs true).1.map (fun s => (s.type, s.addr)) =
      [(ShaderType.compute, 0x100000)] := by
  refine ⟨rfl, rfl⟩

set_option maxRecDepth 8192 in
/-- Claim C1 (amended): for every PM4 dispatch or draw opcode, the decoder
registers -- per enabled hi/lo register-pair of the table whose two halves
are found in the accumulated tracker -- exactly one shader program, exactly
when AT LEAST ONE half is non-zero, at `(hi << 40) | (lo << 8)`. -/
theorem C1_shader_pair_registration (fuel : Nat) (env : Pm4Env) (opts : Pm4Opts)
    (vmid ib_addr : Nat) (ps : Pm4Meta) (regs : List umr_shader_reg_pair)
    (h : ps.opcode ∈ pm4_compute_dispatch_opcodes ∨ ps.opcode ∈ pm4_gfx_draw_opcodes) :
    ((parse_pm4 fuel env opts vmid ib_addr ps regs).1.shader).map (fun s => (s.type, s.addr)) =
      ps.shader.map (fun s => (s.type, s.addr)) ++
        process_shaders_spec opts regs
          (decide (ps.opcode ∈ pm4_compute_dispatch_opcodes)) := by
  by_cases hc : ps.opcode ∈ pm4_compute_dispatch_opcodes
  · conv_lhs => rw [parse_pm4]
    rw [if_pos hc, decide_eq_true hc]
    dsimp only []
    unfold process_shaders process_shaders_spec
    exact (process_shaders_entries opts env vmid (shader_types_table.take 1)
      ps.shader regs regs rfl).1
  · obtain h | h := h
    · exact absurd h hc
    · conv_lhs => rw [parse_pm4]
      rw [if_neg hc, if_pos h, decide_eq_false hc]
      dsimp only []
      unfold process_shaders process_shaders_spec
      exact (process_shaders_entries opts env vmid (shader_types_table.drop 1)
        ps.shader regs regs rfl).1

/-- Witness for C1: a `DISPATCH_DIRECT` (0x15) packet against the concrete
tracker `c1_regs`. -/
theorem C1_shader_pair_registration_witness :
    ((parse_pm4 0 pm4_env_triv {} 7 0 { opcode := 0x15 } c1_regs).1.shader).map
        (fun s => (s.type, s.addr)) =
      (({ opcode := 0x15 } : Pm4Meta)).shader.map (fun s => (s.type, s.addr)) ++
        process_shaders_spec {} c1_regs
          (decide ((({ opcode := 0x15 } : Pm4Meta)).opcode ∈ pm4_compute_dispatch_opcodes)) :=
  C1_shader_pair_registration 0 pm4_env_triv {} 7 0 { opcode := 0x15 } c1_regs
    (Or.inl (by decide))

/-- Per-field HSA events are never bracket callbacks. -/
theorem hsa_field_event_not_ctl (ms : umr_hsa_stream) (f : HField) :
    dec_event_ctl (hsa_field_event ms f) = false := by
  cases f <;> rfl

/-- Every HSA packet body is one `start_opcode` event followed by field
events. -/
theorem hsa_packet_step_shape (a u : Bool) (hqd : Nat) (ms : umr_hsa_stream) :
    ∃ (s : String) (t : Nat) (fs : List HField), (hsa_packet_step a u hqd ms).1 =
      DecEvent.startOp s t :: fs.map (hsa_field_event ms) := by
  unfold hsa_packet_step
  dsimp only []
  repeat' split
  all_goals
    first
    | exact ⟨_, _, [], rfl⟩
    | exact ⟨_, _, hsa_dispatch_fields, rfl⟩
    | exact ⟨_, _, hsa_agent_fields, rfl⟩
    | exact ⟨_, _, hsa_barrier_fields, rfl⟩

/-- HSA packet bodies contain no bracket callback. -/
theorem hsa_packet_step_not_ctl (a u : Bool) (hqd : Nat) (ms : umr_hsa_stream)
    (e : DecEvent) (he : e ∈ (hsa_packet_step a u hqd ms).1) :
    dec_event_ctl e = false := by
  obtain ⟨s, t, fs, hshape⟩ := hsa_packet_step_shape a u hqd ms
  rw [hshape] at he
  rcases List.mem_cons.mp he with rfl | he
  · rfl
  · obtain ⟨f, -, rfl⟩ := List.mem_map.mp he
    exact hsa_field_event_not_ctl ms f

/-- The HSA shader/kernarg presentation block contains no bracket
callback. -/
theorem hsa_shader_events_not_ctl (ms : umr_hsa_stream) (e : DecEvent)
    (he : e ∈ hsa_shader_events ms) : dec_event_ctl e = false := by
  unfold hsa_shader_events at he
  split at he
  · simp at he
  · simp only [List.mem_append, List.mem_map] at he
    rcases he with ⟨p, -, rfl⟩ | he
    · rfl
    · split at he
      · simp only [List.mem_singleton] at he
        subst he
        rfl
      · simp at he

/-- The HSA opcode walk emits no bracket callback of its own. -/
theorem hsa_opcode_loop_not_ctl (a u : Bool) (hqd : Nat) :
    ∀ (stream : List umr_hsa_stream) (opcodes : Nat) (e : DecEvent),
      e ∈ (hsa_opcode_loop a u hqd stream opcodes).1 → dec_event_ctl e = false := by
  intro stream
  induction stream with
  | nil =>
    intro opcodes e he
    simp [hsa_opcode_loop] at he
  | cons ms rest ih =>
    intro opcodes e he
    cases opcodes with
    | zero => simp [hsa_opcode_loop] at he
    | succ k =>
      unfold hsa_opcode_loop at he
      by_cases hz : ms.nwords = 0
      · rw [if_pos hz] at he
        simp at he
      · rw [if_neg hz] at he
        dsimp only [] at he
        split at he
        · exact hsa_packet_step_not_ctl a u hqd ms e he
        · simp only [List.mem_append] at he
          rcases he with (he | he) | he
          · exact hsa_packet_step_not_ctl a u hqd ms e he
          · exact hsa_shader_events_not_ctl ms e he
          · exact ih k e he

/-- Per-field UMSCH events are never bracket callbacks. -/
theorem umsch_field_event_not_ctl (ms : umr_umsch_stream) (f : UField) :
    dec_event_ctl (umsch_field_event ms f) = false := by
  cases f <;> rfl

/-- Every UMSCH packet body is a `start_opcode` event with field events, a
lone unhandled-data event, or nothing. -/
theorem umsch_packet_step_shape (h : Bool) (ms : umr_umsch_stream) :
    (∃ (s : String) (t : Nat) (fs : List UField), (umsch_packet_step h ms).1 =
      DecEvent.startOp s t :: fs.map (umsch_field_event ms)) ∨
    (umsch_packet_step h ms).1 = [DecEvent.unh] ∨
    (umsch_packet_step h ms).1 = [] := by
  unfold umsch_packet_step
  repeat' split
  all_goals
    first
    | exact Or.inl ⟨_, _, _, rfl⟩
    | exact Or.inl ⟨_, _, [], rfl⟩
    | exact Or.inr (Or.inl rfl)
    | exact Or.inr (Or.inr rfl)

/-- UMSCH packet bodies contain no bracket callback. -/
theorem umsch_packet_step_not_ctl (h : Bool) (ms : umr_umsch_stream)
    (e : DecEvent) (he : e ∈ (umsch_packet_step h ms).1) :
    dec_event_ctl e = false := by
  rcases umsch_packet_step_shape h ms with ⟨s, t, fs, hshape⟩ | hshape | hshape
  · rw [hshape] at he
    rcases List.mem_cons.mp he with rfl | he
    · rfl
    · obtain ⟨f, -, rfl⟩ := List.mem_map.mp he
      exact umsch_field_event_not_ctl ms f
  · rw [hshape] at he
    simp only [List.mem_singleton] at he
    subst he
    rfl
  · rw [hshape] at he
    simp at he

/-- The UMSCH opcode walk emits no bracket callback of its own. -/
theorem umsch_opcode_loop_not_ctl (h : Bool) :
    ∀ (stream : List umr_umsch_stream) (opcodes : Nat) (e : DecEvent),
      e ∈ (umsch_opcode_loop h stream opcodes).1 → dec_event_ctl e = false := by
  intro stream
  induction stream with
  | nil =>
    intro opcodes e he
    simp [umsch_opcode_loop] at he
  | cons ms rest ih =>
    intro opcodes e he
    cases opcodes with
    | zero => simp [umsch_opcode_loop] at he
    | succ k =>
      unfold umsch_opcode_loop at he
      dsimp only [] at he
      split at he
      · exact umsch_packet_step_not_ctl h ms e he
      · split at he
        · exact umsch_packet_step_not_ctl h ms e he
        · simp only [List.mem_append] at he
          rcases he with he | he
          · exact umsch_packet_step_not_ctl h ms e he
          · exact ih k e he

/-- Claim C9: both opcode walkers emit `start_ib` strictly first and `done`
exactly once, as the final event -- also on early termination (truncated,
invalid or non-scheduler packets, or an exhausted opcode budget): the event
trace is always `start_ib :: mid ++ [done]` with no bracket callback inside
`mid`. -/
theorem C9_bracket_callbacks :
    (∀ aql uq hqd stream ib_addr ib_vmid opcodes, ∃ mid,
      (umr_hsa_decode_stream_opcodes aql uq hqd stream ib_addr ib_vmid opcodes).1 =
        DecEvent.startIb ib_addr ib_vmid :: (mid ++ [DecEvent.done]) ∧
      ∀ e ∈ mid, dec_event_ctl e = false) ∧
    (∀ hasUnh stream ib_addr ib_vmid opcodes, ∃ mid,
      (umr_umsch_decode_stream_opcodes hasUnh stream ib_addr ib_vmid opcodes).1 =
        DecEvent.startIb ib_addr ib_vmid :: (mid ++ [DecEvent.done]) ∧
      ∀ e ∈ mid, dec_event_ctl e = false) := by
  constructor
  · intro aql uq hqd stream ib ibv ops
    exact ⟨(hsa_opcode_loop aql uq hqd stream ops).1, rfl,
      fun e he => hsa_opcode_loop_not_ctl aql uq hqd stream ops e he⟩
  · intro hasUnh stream ib ibv ops
    exact ⟨(umsch_opcode_loop hasUnh stream ops).1, rfl,
      fun e he => umsch_opcode_loop_not_ctl hasUnh stream ops e he⟩

end Umr
